import Mathlib

/-!
# Verification of the image-rebase registry client

This development shallowly embeds the Go sources of `google/image-rebase`
(the `transport` package and the `rebase` package used by `main.go`, plus
the later engine revision kept in the repository) and proves properties of
the embedding.

Modelling conventions:
* Go byte strings are Lean `String`s; byte lengths are computed through an
  explicit UTF-8 encoder.
* Go `map[string]interface{}` values are association lists of `String × Json`;
  `encoding/json.Marshal` sorts map keys, which the marshaller models by
  sorting the association list.
* Fallible Go code returns `Option`/`Except`; a Go runtime panic is a
  distinguished outcome, never a silently defaulted value.
* The standard library `encoding/json` parser is modelled for documents whose
  numeric literals are integers and whose string escapes are the simple
  one-character escapes; the rebase code never inspects numeric fields, and
  field names are matched exactly (the model does not reproduce Go's
  case-insensitive fallback for struct field names).
* Go slices inside the typed config view are Lean lists, which do not
  distinguish a nil slice from an empty one: a `history` or `diff_ids`
  absent from the input document re-marshals as `null` in Go but as `[]`
  here. No claim concerns those bytes; every concrete fixture carries the
  fields explicitly, where the two agree exactly.
-/

set_option maxRecDepth 100000

namespace ImageRebase

mutual
/-- A decoded JSON document, as produced by `encoding/json.Unmarshal` into
`map[string]interface\x7b\x7d` (objects are unordered maps with distinct keys;
the object and array spines are mutual inductives so that structurally
recursive, definitionally reducing functions exist over them). -/
inductive Json where
  | null : Json
  | bool (b : Bool) : Json
  | num (n : Int) : Json
  | str (s : String) : Json
  | arr (elems : JsonList) : Json
  | obj (fields : JsonObj) : Json

/-- The spine of a JSON array. -/
inductive JsonList where
  | nil : JsonList
  | cons (j : Json) (rest : JsonList) : JsonList

/-- The spine of a JSON object: key/value bindings with distinct keys. -/
inductive JsonObj where
  | nil : JsonObj
  | cons (k : String) (v : Json) (rest : JsonObj) : JsonObj
end

/-- Fetch the value of a key in a decoded JSON object (Go map indexing). -/
def lookupKey (k : String) : JsonObj → Option Json
  | .nil => none
  | .cons k' v rest => if k' = k then some v else lookupKey k rest

/-- Go map assignment `m[k] = v`: replace the value when the key is present,
otherwise add the binding. -/
def setKey (k : String) (v : Json) : JsonObj → JsonObj
  | .nil => .cons k v .nil
  | .cons k' v' rest =>
    if k' = k then .cons k' v rest else .cons k' v' (setKey k v rest)

mutual
/-- Number of constructors of a document; a strict upper bound on the
recursion depth of the renderer. -/
def jsonSize : Json → Nat
  | .null | .bool _ | .num _ | .str _ => 1
  | .arr elems => 1 + jsonListSize elems
  | .obj fields => 1 + jsonObjSize fields

/-- Size of an array spine. -/
def jsonListSize : JsonList → Nat
  | .nil => 1
  | .cons j rest => 1 + jsonSize j + jsonListSize rest

/-- Size of an object spine. -/
def jsonObjSize : JsonObj → Nat
  | .nil => 1
  | .cons _ v rest => 1 + jsonSize v + jsonObjSize rest
end

/-! ## The `encoding/json.Marshal` model

`Marshal` sorts map keys byte-wise (UTF-8 byte order coincides with code
point order), escapes `"` and `\`, control characters, and — because
HTML-escaping is on by default — `<`, `>` and `&`. -/

/-- Two-digit lowercase hex of a value below 256 (for `\u00XX` escapes and
digest rendering). -/
def hexDigit (n : Nat) : Char :=
  if n < 10 then Char.ofNat (48 + n) else Char.ofNat (87 + n)

/-- Four-digit lowercase hex, as used in `\uXXXX` escapes. -/
def hex4 (n : Nat) : String :=
  String.mk [hexDigit (n / 4096 % 16), hexDigit (n / 256 % 16),
             hexDigit (n / 16 % 16), hexDigit (n % 16)]

/-- How `encoding/json` renders one character of a string value. -/
def escapeChar (c : Char) : String :=
  if c = '"' then "\\\""
  else if c = '\\' then "\\\\"
  else if c = '\n' then "\\n"
  else if c = '\r' then "\\r"
  else if c = '\t' then "\\t"
  else if c = '<' then "\\u003c"
  else if c = '>' then "\\u003e"
  else if c = '&' then "\\u0026"
  else if c.toNat < 32 then "\\u" ++ hex4 c.toNat
  else if c.toNat = 8232 ∨ c.toNat = 8233 then "\\u" ++ hex4 c.toNat
  else String.mk [c]

/-- `encoding/json` rendering of a string value, quotes included. -/
def quoteString (s : String) : String :=
  "\"" ++ String.join (s.toList.map escapeChar) ++ "\""

/-- Byte-wise (equivalently, code-point-wise) string order used by
`Marshal` when sorting map keys. -/
def keyLE (a b : String) : Bool :=
  a.toList ≤ b.toList

/-- Insert a binding into a key-sorted object spine. -/
def insertSorted (k : String) (v : Json) : JsonObj → JsonObj
  | .nil => .cons k v .nil
  | .cons k' v' rest =>
    if keyLE k k' then .cons k v (.cons k' v' rest) else .cons k' v' (insertSorted k v rest)

/-- Sort object fields by key, as `Marshal` does for Go maps. -/
def sortObj : JsonObj → JsonObj
  | .nil => .nil
  | .cons k v rest => insertSorted k v (sortObj rest)

mutual
/-- Fuel-indexed rendering of a document; fuel at least `jsonSize` renders
completely, and the Nat recursion is structural so rendering reduces
definitionally. -/
def marshalF : Nat → Json → String
  | 0, _ => ""
  | _ + 1, .null => "null"
  | _ + 1, .bool true => "true"
  | _ + 1, .bool false => "false"
  | _ + 1, .num n => toString n
  | _ + 1, .str s => quoteString s
  | fuel + 1, .arr elems => "[" ++ marshalElemsF fuel elems ++ "]"
  | fuel + 1, .obj fields => "\x7b" ++ marshalFieldsF fuel (sortObj fields) ++ "\x7d"

/-- Comma-separated rendering of array elements. -/
def marshalElemsF : Nat → JsonList → String
  | 0, _ => ""
  | _ + 1, .nil => ""
  | fuel + 1, .cons j .nil => marshalF fuel j
  | fuel + 1, .cons j rest => marshalF fuel j ++ "," ++ marshalElemsF fuel rest

/-- Comma-separated rendering of (already sorted) object fields. -/
def marshalFieldsF : Nat → JsonObj → String
  | 0, _ => ""
  | _ + 1, .nil => ""
  | fuel + 1, .cons k v .nil => quoteString k ++ ":" ++ marshalF fuel v
  | fuel + 1, .cons k v rest =>
    quoteString k ++ ":" ++ marshalF fuel v ++ "," ++ marshalFieldsF fuel rest
end

/-- `encoding/json.Marshal` of a decoded document (compact form, sorted map
keys, default HTML escaping). -/
def jsonMarshal (j : Json) : String :=
  marshalF (jsonSize j) j

/-! ## The `encoding/json.Unmarshal` model

A fuel-indexed recursive-descent parser for the JSON grammar accepted by
`encoding/json`, restricted to integer numeric literals and one-character
string escapes. -/

/-- JSON insignificant whitespace. -/
def isJsonWs (c : Char) : Bool :=
  c = ' ' ∨ c = '\t' ∨ c = '\n' ∨ c = '\r'

/-- Drop leading insignificant whitespace. -/
def skipWs : List Char → List Char
  | [] => []
  | c :: rest => if isJsonWs c then skipWs rest else c :: rest

/-- Decode a one-character string escape (`\"`, `\\`, `\/`, `\b`, `\f`,
`\n`, `\r`, `\t`). -/
def unescape (c : Char) : Option Char :=
  if c = '"' then some '"'
  else if c = '\\' then some '\\'
  else if c = '/' then some '/'
  else if c = 'b' then some (Char.ofNat 8)
  else if c = 'f' then some (Char.ofNat 12)
  else if c = 'n' then some '\n'
  else if c = 'r' then some '\r'
  else if c = 't' then some '\t'
  else none

/-- Parse the body of a string literal (the opening quote has been
consumed); returns the decoded characters and the rest of the input. -/
def parseStrChars : List Char → Option (List Char × List Char)
  | [] => none
  | '"' :: rest => some ([], rest)
  | '\\' :: e :: rest => do
    let c ← unescape e
    let (s, rest') ← parseStrChars rest
    pure (c :: s, rest')
  | c :: rest =>
    if c = '\\' ∨ c.toNat < 32 then none
    else do
      let (s, rest') ← parseStrChars rest
      pure (c :: s, rest')

/-- Longest prefix of decimal digits. -/
def takeDigits : List Char → (List Char × List Char)
  | [] => ([], [])
  | c :: rest =>
    if c.isDigit then
      let (ds, rest') := takeDigits rest
      (c :: ds, rest')
    else ([], c :: rest)

/-- Numeric value of a digit string. -/
def digitsToNat (ds : List Char) : Nat :=
  ds.foldl (fun n c => 10 * n + (c.toNat - 48)) 0

/-- Parse an integer numeric literal (sign already split off by the caller
for the negative case); rejects leading zeros, as `encoding/json` does, and
rejects a following `.`/`e`/`E` (fractional and exponent forms are outside
this model). -/
def parseNat : List Char → Option (Nat × List Char)
  | cs =>
    match takeDigits cs with
    | ([], _) => none
    | (ds, rest) =>
      if ds.length > 1 ∧ ds.headI = '0' then none
      else match rest with
        | c :: _ => if c = '.' ∨ c = 'e' ∨ c = 'E' then none else some (digitsToNat ds, rest)
        | [] => some (digitsToNat ds, [])

mutual
/-- Parse one JSON value (leading whitespace allowed). -/
def parseValue : Nat → List Char → Option (Json × List Char)
  | 0, _ => none
  | fuel + 1, cs =>
    match skipWs cs with
    | 'n' :: 'u' :: 'l' :: 'l' :: rest => some (.null, rest)
    | 't' :: 'r' :: 'u' :: 'e' :: rest => some (.bool true, rest)
    | 'f' :: 'a' :: 'l' :: 's' :: 'e' :: rest => some (.bool false, rest)
    | '"' :: rest => do
      let (s, rest') ← parseStrChars rest
      pure (.str (String.mk s), rest')
    | '[' :: rest =>
      (match skipWs rest with
      | ']' :: rest' => some (.arr .nil, rest')
      | other => do
        let (elems, rest') ← parseElems fuel other
        pure (.arr elems, rest'))
    | '\x7b' :: rest =>
      (match skipWs rest with
      | '\x7d' :: rest' => some (.obj .nil, rest')
      | other => do
        let (fields, rest') ← parseFields fuel other
        pure (.obj fields, rest'))
    | '-' :: rest => do
      let (n, rest') ← parseNat rest
      pure (.num (-(n : Int)), rest')
    | cs' => do
      let (n, rest') ← parseNat cs'
      pure (.num (n : Int), rest')

/-- Parse the elements of a non-empty array, up to and including `]`. -/
def parseElems : Nat → List Char → Option (JsonList × List Char)
  | 0, _ => none
  | fuel + 1, cs => do
    let (j, rest) ← parseValue fuel cs
    match skipWs rest with
    | ',' :: rest' => do
      let (elems, rest'') ← parseElems fuel rest'
      pure (.cons j elems, rest'')
    | ']' :: rest' => pure (.cons j .nil, rest')
    | _ => none

/-- Parse the members of a non-empty object, up to and including the
closing brace; a repeated key overwrites the earlier value, as sequential
Go map assignment does. -/
def parseFields : Nat → List Char → Option (JsonObj × List Char)
  | 0, _ => none
  | fuel + 1, cs =>
    match skipWs cs with
    | '"' :: rest => do
      let (k, rest₁) ← parseStrChars rest
      match skipWs rest₁ with
      | ':' :: rest₂ => do
        let (v, rest₃) ← parseValue fuel rest₂
        match skipWs rest₃ with
        | ',' :: rest₄ => do
          let (fields, rest₅) ← parseFields fuel rest₄
          -- a later duplicate of this key overwrites the earlier binding
          if (lookupKey (String.mk k) fields).isSome then pure (fields, rest₅)
          else pure (.cons (String.mk k) v fields, rest₅)
        | '\x7d' :: rest₄ => pure (.cons (String.mk k) v .nil, rest₄)
        | _ => none
      | _ => none
    | _ => none
end

/-- `encoding/json.Unmarshal` into `interface\x7b\x7d`: the whole input must
be one JSON value followed only by whitespace (the fuel bounds the combined
nesting and element count, which the input length dominates). -/
def goUnmarshal (s : String) : Option Json := do
  let (j, rest) ← parseValue (2 * s.length + 2) s.toList
  if (skipWs rest).isEmpty then pure j else none

/-! ## Bytes, SHA-256 and hex

`crypto/sha256` and `fmt.Sprintf("%x", ...)`, modelled over byte lists
(naturals below 256); 32-bit words are naturals reduced mod `2^32`. -/

/-- UTF-8 encoding of one character. -/
def charUtf8 (c : Char) : List Nat :=
  let n := c.toNat
  if n < 128 then [n]
  else if n < 2048 then [192 + n / 64, 128 + n % 64]
  else if n < 65536 then [224 + n / 4096, 128 + n / 64 % 64, 128 + n % 64]
  else [240 + n / 262144, 128 + n / 4096 % 64, 128 + n / 64 % 64, 128 + n % 64]

/-- The bytes of a Go string (`len(s)` counts these bytes). -/
def strBytes (s : String) : List Nat :=
  (s.toList.map charUtf8).flatten

/-- Reduce to a 32-bit word. -/
def w32 (n : Nat) : Nat := n % 4294967296

/-- Right-rotation of a 32-bit word. -/
def rotr32 (x n : Nat) : Nat :=
  w32 (x / 2 ^ n + x % 2 ^ n * 2 ^ (32 - n))

/-- Bitwise complement of a 32-bit word. -/
def not32 (x : Nat) : Nat := 4294967295 - x

/-- The SHA-256 round constants. -/
def sha256K : List Nat :=
  [1116352408, 1899447441, 3049323471, 3921009573, 961987163, 1508970993,
   2453635748, 2870763221, 3624381080, 310598401, 607225278, 1426881987,
   1925078388, 2162078206, 2614888103, 3248222580, 3835390401, 4022224774,
   264347078, 604807628, 770255983, 1249150122, 1555081692, 1996064986,
   2554220882, 2821834349, 2952996808, 3210313671, 3336571891, 3584528711,
   113926993, 338241895, 666307205, 773529912, 1294757372, 1396182291,
   1695183700, 1986661051, 2177026350, 2456956037, 2730485921, 2820302411,
   3259730800, 3345764771, 3516065817, 3600352804, 4094571909, 275423344,
   430227734, 506948616, 659060556, 883997877, 958139571, 1322822218,
   1537002063, 1747873779, 1955562222, 2024104815, 2227730452, 2361852424,
   2428436474, 2756734187, 3204031479, 3329325298]

/-- The SHA-256 initial hash value. -/
def sha256H0 : List Nat :=
  [1779033703, 3144134277, 1013904242, 2773480762, 1359893119, 2600822924,
   528734635, 1541459225]

/-- SHA-256 message padding: a `0x80` byte, zeros, and the 64-bit big-endian
bit length, to a multiple of 64 bytes. -/
def sha256Pad (msg : List Nat) : List Nat :=
  let l := msg.length
  let zeros := (119 - l % 64) % 64
  let bits := 8 * l
  msg ++ [128] ++ List.replicate zeros 0 ++
    [bits / 2 ^ 56 % 256, bits / 2 ^ 48 % 256, bits / 2 ^ 40 % 256, bits / 2 ^ 32 % 256,
     bits / 2 ^ 24 % 256, bits / 2 ^ 16 % 256, bits / 2 ^ 8 % 256, bits % 256]

/-- Group bytes into big-endian 32-bit words. -/
def bytesToWords : List Nat → List Nat
  | b0 :: b1 :: b2 :: b3 :: rest =>
    (b0 * 2 ^ 24 + b1 * 2 ^ 16 + b2 * 2 ^ 8 + b3) :: bytesToWords rest
  | _ => []

/-- Split a padded message into 16-word blocks (padding guarantees a
multiple of 16 words; a ragged tail is dropped). -/
def toBlocks : List Nat → List (List Nat)
  | w0 :: w1 :: w2 :: w3 :: w4 :: w5 :: w6 :: w7 ::
    w8 :: w9 :: w10 :: w11 :: w12 :: w13 :: w14 :: w15 :: rest =>
    [w0, w1, w2, w3, w4, w5, w6, w7, w8, w9, w10, w11, w12, w13, w14, w15] :: toBlocks rest
  | _ => []

/-- Extend a 16-word block to the 64-word message schedule. -/
def sha256Schedule (block : List Nat) : List Nat :=
  (List.range 48).foldl
    (fun w _ =>
      let i := w.length
      let s0 :=
        rotr32 (w.getD (i - 15) 0) 7 ^^^ rotr32 (w.getD (i - 15) 0) 18 ^^^ w.getD (i - 15) 0 / 2 ^ 3
      let s1 :=
        rotr32 (w.getD (i - 2) 0) 17 ^^^ rotr32 (w.getD (i - 2) 0) 19 ^^^ w.getD (i - 2) 0 / 2 ^ 10
      w ++ [w32 (w.getD (i - 16) 0 + s0 + w.getD (i - 7) 0 + s1)])
    block

/-- One SHA-256 compression round. -/
def sha256Round (st : List Nat) (kw : Nat × Nat) : List Nat :=
  match st with
  | [a, b, c, d, e, f, g, h] =>
    let s1 := rotr32 e 6 ^^^ rotr32 e 11 ^^^ rotr32 e 25
    let ch := (e &&& f) ^^^ (not32 e &&& g)
    let t1 := w32 (h + s1 + ch + kw.1 + kw.2)
    let s0 := rotr32 a 2 ^^^ rotr32 a 13 ^^^ rotr32 a 22
    let mj := (a &&& b) ^^^ (a &&& c) ^^^ (b &&& c)
    let t2 := w32 (s0 + mj)
    [w32 (t1 + t2), a, b, c, w32 (d + t1), e, f, g]
  | st => st

/-- Compress one block into the running hash. -/
def sha256Compress (h : List Nat) (block : List Nat) : List Nat :=
  let w := sha256Schedule block
  let st := (sha256K.zip w).foldl sha256Round h
  (h.zip st).map (fun p => w32 (p.1 + p.2))

/-- SHA-256 of a byte list, as a 32-byte list. -/
def sha256Bytes (msg : List Nat) : List Nat :=
  let hs := (toBlocks (bytesToWords (sha256Pad msg))).foldl sha256Compress sha256H0
  (hs.map (fun wrd => [wrd / 2 ^ 24 % 256, wrd / 2 ^ 16 % 256, wrd / 2 ^ 8 % 256, wrd % 256])).flatten

/-- `%x`: lowercase hex of a byte list. -/
def bytesHex (bs : List Nat) : String :=
  String.mk ((bs.map (fun b => [hexDigit (b / 16 % 16), hexDigit (b % 16)])).flatten)

/-- The digest string `fmt.Sprintf("sha256:%x", h.Sum(nil))` computed by the
rebase engine over a config serialization. -/
def sha256Hex (s : String) : String :=
  "sha256:" ++ bytesHex (sha256Bytes (strBytes s))

/-! ## The rebase package data model (`pkg/rebase`, as used by `main.go`) -/

/-- A manifest descriptor: media type, size and digest of a referenced blob. -/
structure Descriptor where
  mediaType : String
  size : Int
  digest : String
deriving DecidableEq

/-- The image manifest (`manifest` in the source). -/
structure Manifest where
  schemaVersion : Int
  mediaType : String
  config : Descriptor
  layers : List Descriptor
deriving DecidableEq

/-- One entry of the config's `history` sequence. -/
structure HistoryEntry where
  created : String
  createdBy : String
  emptyLayer : Bool
deriving DecidableEq

/-- The config's `rootfs` section. -/
structure RootFS where
  diffIDs : List String
  type : String
deriving DecidableEq

/-- The image config (`config` in the source): the full decoded document
`allData` plus the typed view of the fields the engine rewrites
(`History`, `RootFS`, and `Config.Labels`, the latter flattened here to
`labels`; a `none` value models a nil Go map). -/
structure Config where
  allData : JsonObj
  history : List HistoryEntry
  rootFS : RootFS
  labels : Option (List (String × String))

/-- Convert an array spine to a list for traversal. -/
def JsonList.toList : JsonList → List Json
  | .nil => []
  | .cons j rest => j :: JsonList.toList rest

/-- Build an array spine from a list. -/
def JsonList.ofList : List Json → JsonList
  | [] => .nil
  | j :: rest => .cons j (JsonList.ofList rest)

/-- Unmarshal into a Go `string` field: a string value sets it, `null`
leaves the zero value, anything else is a type error. -/
def jsonToGoString : Json → Option String
  | .str s => some s
  | .null => some ""
  | _ => none

/-- A `string` struct field: missing keys keep the zero value. -/
def strField (fs : JsonObj) (k : String) : Option String :=
  match lookupKey k fs with
  | none => some ""
  | some j => jsonToGoString j

/-- A `bool` struct field: missing keys and `null` keep the zero value. -/
def boolField (fs : JsonObj) (k : String) : Option Bool :=
  match lookupKey k fs with
  | none => some false
  | some .null => some false
  | some (.bool b) => some b
  | some _ => none

/-- Unmarshal one `history` entry (a struct: `null` leaves the zero value,
a non-object is a type error). -/
def historyEntryFromJson : Json → Option HistoryEntry
  | .obj fs => do
    let created ← strField fs "created"
    let createdBy ← strField fs "created_by"
    let emptyLayer ← boolField fs "empty_layer"
    pure ⟨created, createdBy, emptyLayer⟩
  | .null => some ⟨"", "", false⟩
  | _ => none

/-- Unmarshal the `history` field (a `[]struct`: `null` leaves the nil
slice, a non-array is a type error). -/
def historyFromJson : Json → Option (List HistoryEntry)
  | .null => some []
  | .arr elems => elems.toList.mapM historyEntryFromJson
  | _ => none

/-- Unmarshal one `diff_ids` element into a Go `string`. -/
def diffIDsFromJson : Json → Option (List String)
  | .null => some []
  | .arr elems => elems.toList.mapM jsonToGoString
  | _ => none

/-- Unmarshal the `rootfs` field. -/
def rootfsFromJson : Json → Option RootFS
  | .null => some ⟨[], ""⟩
  | .obj fs => do
    let diffIDs ← (match lookupKey "diff_ids" fs with
      | none => some []
      | some j => diffIDsFromJson j)
    let type ← strField fs "type"
    pure ⟨diffIDs, type⟩
  | _ => none

/-- Unmarshal a `map[string]string` value (label values must be strings;
`null` elements keep the zero value). -/
def labelsFromObj : JsonObj → Option (List (String × String))
  | .nil => some []
  | .cons k v rest => do
    let s ← jsonToGoString v
    let tail ← labelsFromObj rest
    pure ((k, s) :: tail)

/-- Unmarshal the top-level `config` struct field down to its `labels`
map (`none` at the outer level models the nil Go map). -/
def labelsFromConfigField : Option Json → Option (Option (List (String × String)))
  | none => some none
  | some .null => some none
  | some (.obj fs) =>
    (match lookupKey "labels" fs with
    | none => some none
    | some .null => some none
    | some (.obj ls) => (labelsFromObj ls).map some
    | some _ => none)
  | some _ => none

/-- The typed `history` field of a decoded document (missing keys keep
the zero value). -/
def historyField (fields : JsonObj) : Option (List HistoryEntry) :=
  match lookupKey "history" fields with
  | none => some []
  | some j => historyFromJson j

/-- The typed `rootfs` field of a decoded document. -/
def rootfsField (fields : JsonObj) : Option RootFS :=
  match lookupKey "rootfs" fields with
  | none => some ⟨[], ""⟩
  | some j => rootfsFromJson j

/-- The typed `config.labels` field of a decoded document. -/
def labelsField (fields : JsonObj) : Option (Option (List (String × String))) :=
  labelsFromConfigField (lookupKey "config" fields)

/-- `configFromJSON`: decode the raw blob generically into `allData` and in
a second decode extract the typed `history`/`rootfs`/`config.labels` view;
either decode error fails the call. -/
def configFromJSON (b : String) : Option Config :=
  match goUnmarshal b with
  | some (.obj allData) => do
    let history ← historyField allData
    let rootFS ← rootfsField allData
    let labels ← labelsField allData
    pure ⟨allData, history, rootFS, labels⟩
  | _ => none

/-- Rendering of the typed `history` slice, in struct field order with
`empty_layer` carrying `omitempty` (the field names happen to already be
in the marshaller's sorted order, so rendering as an object is exact). -/
def historyToJson (h : List HistoryEntry) : Json :=
  .arr (JsonList.ofList (h.map fun e =>
    .obj (.cons "created" (.str e.created)
      (.cons "created_by" (.str e.createdBy)
        (if e.emptyLayer then .cons "empty_layer" (.bool true) .nil else .nil)))))

/-- Rendering of the typed `rootfs` struct (field order `diff_ids`, `type`,
again already sorted). -/
def rootfsToJson (r : RootFS) : Json :=
  .obj (.cons "diff_ids" (.arr (JsonList.ofList (r.diffIDs.map Json.str)))
    (.cons "type" (.str r.type) .nil))

/-- Build a JSON object from a label map. -/
def labelsObj : List (String × String) → JsonObj
  | [] => .nil
  | (k, v) :: rest => .cons k (.str v) (labelsObj rest)

/-- Rendering of a `map[string]string`: a nil map marshals to `null`. -/
def labelsToJson : Option (List (String × String)) → Json
  | none => .null
  | some ls => .obj (labelsObj ls)

/-- The object whose marshaling `toJSON` returns: `allData` with
`history` and `rootfs` overwritten and `labels` overwritten inside the
`config` sub-object. `none` models the Go panic of the type assertion
`c.allData["config"].(map[string]interface\x7b\x7d)` when the key is absent or
its value is not an object. -/
def toJSONObj (c : Config) : Option JsonObj :=
  let all₁ := setKey "history" (historyToJson c.history) c.allData
  let all₂ := setKey "rootfs" (rootfsToJson c.rootFS) all₁
  match lookupKey "config" all₂ with
  | some (.obj cfgFields) =>
    some (setKey "config" (.obj (setKey "labels" (labelsToJson c.labels) cfgFields)) all₂)
  | _ => none

/-- `config.toJSON`: overwrite `history`, `rootfs` and `config.labels` in
the decoded document and re-marshal it; `none` models the panic on a
missing or non-object `config` member. -/
def Config.toJSON (c : Config) : Option String :=
  (toJSONObj c).map (fun fields => jsonMarshal (.obj fields))

/-- An image coordinate (`ImageName` in the source): tag-addressed when
`dig` is empty, digest-addressed otherwise. -/
structure ImageName where
  reg : String
  repo : String
  tag : String
  dig : String
deriving DecidableEq

/-- `isDigest`: the reference is digest-addressed. -/
def ImageName.isDigest (i : ImageName) : Bool :=
  i.dig ≠ ""

/-- `tagOrDigest`: the tag when present, the digest otherwise. -/
def ImageName.tagOrDigest (i : ImageName) : String :=
  if i.tag ≠ "" then i.tag else i.dig

/-- `String()`: `reg/repo@dig` for digest references, `reg/repo:tag`
otherwise. -/
def ImageName.render (i : ImageName) : String :=
  if i.isDigest then i.reg ++ "/" ++ i.repo ++ "@" ++ i.dig
  else i.reg ++ "/" ++ i.repo ++ ":" ++ i.tag

/-- Go map read on a possibly-nil `map[string]string`. -/
def lookupLabel (k : String) : List (String × String) → Option String
  | [] => none
  | (k', v) :: rest => if k' = k then some v else lookupLabel k rest

/-- Go map assignment on a label map. -/
def setLabel (k v : String) : List (String × String) → List (String × String)
  | [] => [(k, v)]
  | (k', v') :: rest =>
    if k' = k then (k', v) :: rest else (k', v') :: setLabel k v rest

/-- Modelled from the spec: `FromString` delegates reference parsing to the
vendored `github.com/docker/distribution/reference` library, which is not
under `src/`. Per the spec: split the registry host off the front when the
first path segment looks like a host, default the registry and a `library/`
prefix for bare names, split a trailing `@digest` or `:tag`, and default
the tag to `latest`; unparsable strings (such as ones containing spaces)
yield no reference. -/
def fromStringModel (s : String) : Option ImageName :=
  if s = "" ∨ s.toList.contains ' ' then none
  else
    let segs := s.splitOn "/"
    let (reg, rest) :=
      match segs with
      | first :: (_ :: _ : List String) =>
        if first.toList.contains '.' ∨ first.toList.contains ':' then
          (first, String.intercalate "/" segs.tail)
        else ("", s)
      | _ => ("", s)
    let (repoPart, tag, dig) :=
      match rest.splitOn "@" with
      | [r, d] => (r, "", d)
      | _ =>
        let colonSegs := rest.splitOn ":"
        match colonSegs with
        | [r, t] => (r, t, "")
        | _ => (rest, "latest", "")
    if repoPart = "" then none
    else if reg = "" then
      some ⟨"index.docker.io",
        if repoPart.toList.contains '/' then repoPart else "library/" ++ repoPart,
        tag, dig⟩
    else some ⟨reg, repoPart, tag, dig⟩

/-- The error values `Rebase` can return, one constructor per
`fmt.Errorf`/`errors.New` site (arguments carry the formatted data). -/
inductive FetchErr where
  | manifestHTTP (status : Nat)
  | configHTTP (status : Nat)
  | configDecode
deriving DecidableEq

/-- Errors returned (not panicked) by the engine. -/
inductive RErr where
  | rebasedIsDigest
  | basePairMismatch
  | getOriginal (e : FetchErr)
  | getOldBase (e : FetchErr)
  | getNewBase (e : FetchErr)
  | labelMissing
  | labelMalformed (lbl : String)
  | labelOldParse (s : String)
  | labelOldNotDigest (s : String)
  | labelNewParse (s : String)
  | labelNewIsDigest (s : String)
  | notBasedOn (orig oldBase : ImageName)
  | httpError (status : Nat)
  | blobFetchFailed (dig reg repo : String)
  | blobPutFailed (dig reg repo : String)
  | configPutFailed (status : Nat)
  | manifestPutFailed (status : Nat)
deriving DecidableEq

/-- `getBasesFromLabel`: recover the two bases from the `rebase` label of
the original config. -/
def getBasesFromLabel (c : Config) : Except RErr (ImageName × ImageName) :=
  match lookupLabel "rebase" (c.labels.getD []) with
  | none => .error .labelMissing
  | some lbl =>
    match lbl.splitOn " " with
    | p0 :: p1 :: _ =>
      (match fromStringModel p0 with
      | none => .error (.labelOldParse p0)
      | some oldBase =>
        if ¬oldBase.isDigest then .error (.labelOldNotDigest oldBase.render)
        else match fromStringModel p1 with
          | none => .error (.labelNewParse p1)
          | some newBase =>
            if newBase.isDigest then .error (.labelNewIsDigest newBase.render)
            else .ok (oldBase, newBase))
    | _ => .error (.labelMalformed lbl)

/-! ## The registry as seen over the wire

The engine's HTTP calls are modelled against a `World` of response
functions (status codes plus the payloads the code actually reads; the
manifest body is carried already decoded, since manifest decoding is not
at issue in any claim). `NetEvent` records each request issued, in order. -/

/-- Registry responses, per endpoint. -/
structure World where
  /-- `GET /v2/repo/manifests/ref` → status and decoded body. -/
  manifests : String → String → String → Nat × Manifest
  /-- The `Docker-Content-Digest` response header of that GET. -/
  manifestHeaderDigest : String → String → String → String
  /-- `GET /v2/repo/blobs/digest` → status and body bytes. -/
  blobs : String → String → String → Nat × String
  /-- `POST /v2/repo/blobs/uploads/?mount=digest&from=fromRepo` → status. -/
  mountStatus : String → String → String → String → Nat
  /-- `POST /v2/repo/blobs/uploads/?digest=digest` → status. -/
  putBlobStatus : String → String → String → Nat
  /-- `PUT /v2/repo/manifests/tag` → status. -/
  putManifestStatus : String → String → String → Nat

/-- One registry request, in issue order. -/
inductive NetEvent where
  | manifestGet (reg repo ref : String)
  | blobGet (reg repo dig : String)
  | mountPost (toReg toRepo dig fromRepo : String)
  | blobPut (reg repo dig body : String)
  | manifestPut (reg repo tag : String) (m : Manifest)
deriving DecidableEq

/-- A fetched manifest/config pair (`imageData` in the source). -/
structure ImageData where
  manifest : Manifest
  config : Config

/-- `getImageData`: GET the manifest (non-200 is an `HTTPError`), then GET
and decode the config blob (`getConfig` checks for 200 and runs
`configFromJSON`); the image digest is the reference's own digest or the
`Docker-Content-Digest` header for tag references. -/
def getImageData (w : World) (n : ImageName) : List NetEvent × Except FetchErr (ImageData × String) :=
  let (st, m) := w.manifests n.reg n.repo n.tagOrDigest
  let ev₁ := [NetEvent.manifestGet n.reg n.repo n.tagOrDigest]
  if st ≠ 200 then (ev₁, .error (.manifestHTTP st))
  else
    let (cst, cbody) := w.blobs n.reg n.repo m.config.digest
    let ev₂ := ev₁ ++ [NetEvent.blobGet n.reg n.repo m.config.digest]
    if cst ≠ 200 then (ev₂, .error (.configHTTP cst))
    else match configFromJSON cbody with
      | none => (ev₂, .error .configDecode)
      | some c =>
        let dg := if n.isDigest then n.dig else w.manifestHeaderDigest n.reg n.repo n.tagOrDigest
        (ev₂, .ok (⟨m, c⟩, dg))

/-- `getBlob`: GET the blob and return the response body as the stream —
the source checks only for a transport error, never the HTTP status, so
every registry response yields `.ok`. -/
def getBlob (w : World) (reg repo dig : String) : List NetEvent × Except RErr String :=
  ([NetEvent.blobGet reg repo dig], .ok (w.blobs reg repo dig).2)

/-- `putBlob`: monolithic upload; a non-201 status is an `HTTPError`
(returned here as the offending status). -/
def putBlob (w : World) (reg repo dig body : String) : List NetEvent × Option Nat :=
  let st := w.putBlobStatus reg repo dig
  ([NetEvent.blobPut reg repo dig body], if st ≠ 201 then some st else none)

/-- `mirrorBlob`: download a blob from `from₁` and re-upload it to `dst`,
wrapping either failure. -/
def mirrorBlob (w : World) (dst from₁ : ImageName) (dig : String) : List NetEvent × Option RErr :=
  let (ev₁, blobRes) := getBlob w from₁.reg from₁.repo dig
  match blobRes with
  | .error _ => (ev₁, some (.blobFetchFailed dig from₁.reg from₁.repo))
  | .ok body =>
    let (ev₂, perr) := putBlob w dst.reg dst.repo dig body
    match perr with
    | some _ => (ev₁ ++ ev₂, some (.blobPutFailed dig dst.reg dst.repo))
    | none => (ev₁ ++ ev₂, none)

/-- The loop of `mirror` over the manifest's layers, failing fast. -/
def mirrorLayers (w : World) (dst from₁ : ImageName) : List Descriptor → List NetEvent × Option RErr
  | [] => ([], none)
  | l :: rest =>
    let (ev, r) := mirrorBlob w dst from₁ l.digest
    match r with
    | some e => (ev, some e)
    | none =>
      let (ev', r') := mirrorLayers w dst from₁ rest
      (ev ++ ev', r')

/-- `mirror`: download and re-upload every layer in the manifest. -/
def mirrorGo (w : World) (dst from₁ : ImageName) (m : Manifest) : List NetEvent × Option RErr :=
  mirrorLayers w dst from₁ m.layers

/-- The loop of `mount` over the manifest's layers: POST a cross-repo
mount per layer; on `202` fall back to `mirror` — of the whole manifest —
and return its result; any status other than `201` is an `HTTPError`. -/
def mountLayers (w : World) (dst from₁ : ImageName) (m : Manifest) : List Descriptor → List NetEvent × Option RErr
  | [] => ([], none)
  | l :: rest =>
    let ev := [NetEvent.mountPost dst.reg dst.repo l.digest from₁.repo]
    let st := w.mountStatus dst.reg dst.repo l.digest from₁.repo
    if st = 202 then
      let (ev', r) := mirrorGo w dst from₁ m
      (ev ++ ev', r)
    else if st ≠ 201 then (ev, some (.httpError st))
    else
      let (ev', r') := mountLayers w dst from₁ m rest
      (ev ++ ev', r')

/-- `mount`: a no-op when source and destination repositories coincide,
otherwise the per-layer mount loop. -/
def mountGo (w : World) (dst from₁ : ImageName) (m : Manifest) : List NetEvent × Option RErr :=
  if dst.repo = from₁.repo then ([], none)
  else mountLayers w dst from₁ m m.layers

/-- The basis-check loop of `Rebase`: index `orig`'s layers by the range
of `oldBase`'s layers. `some true` = all digests matched; `some false` =
first mismatch (the "not based on" error); `none` = index out of range,
a Go runtime panic, reached when `oldBase` has more layers than `orig`. -/
def basisLoopAux (origLayers : List Descriptor) (i : Nat) : List Descriptor → Option Bool
  | [] => some true
  | l :: rest =>
    match origLayers[i]? with
    | none => none
    | some d => if d.digest ≠ l.digest then some false else basisLoopAux origLayers (i + 1) rest

/-- The basis check, started at index 0. -/
def basisLoop (origLayers oldLayers : List Descriptor) : Option Bool :=
  basisLoopAux origLayers 0 oldLayers

/-- Go slicing `l[k:]`: defined for `k ≤ len(l)`, a runtime panic
(`none`) beyond. -/
def goSliceFrom (l : List α) (k : Nat) : Option (List α) :=
  if k ≤ l.length then some (l.drop k) else none

/-- The final outcome of a `Rebase` call: success (carrying the pushed
manifest, the final config value and its serialized bytes), a returned
error, or a runtime panic. -/
inductive ROutcome where
  | ok (m : Manifest) (c : Config) (cfgBytes : String)
  | err (e : RErr)
  | panicked

/-- A `Rebase` run: the requests issued, in order, and the outcome. -/
structure RResult where
  events : List NetEvent
  outcome : ROutcome

/-- The tail of `Rebase` after the splice: serialize the config (a panic
propagates), recompute the manifest's config digest and size from those
exact bytes, serialize again for the upload, POST the config blob and PUT
the manifest (wrapping their non-success statuses). -/
def finishPush (w : World) (rebased : ImageName) (m : Manifest) (c : Config) : List NetEvent × ROutcome :=
  match c.toJSON with
  | none => ([], .panicked)
  | some b =>
    let m' := { m with config := { m.config with
      digest := sha256Hex b,
      size := ((strBytes b).length : Int) } }
    match c.toJSON with
    | none => ([], .panicked)
    | some blob =>
      let (ev₁, perr) := putBlob w rebased.reg rebased.repo m'.config.digest blob
      match perr with
      | some st => (ev₁, .err (.configPutFailed st))
      | none =>
        let st := w.putManifestStatus rebased.reg rebased.repo rebased.tag
        let ev₂ := [NetEvent.manifestPut rebased.reg rebased.repo rebased.tag m']
        if st ≠ 201 ∧ st ≠ 200 then (ev₁ ++ ev₂, .err (.manifestPutFailed st))
        else (ev₁ ++ ev₂, .ok m' c b)

/-- The splice step of `Rebase` (factored out of the main sequence for
reuse in proofs): slice the three tails with Go slicing semantics (`none`
is the runtime panic when an old-base sequence is longer than the
original's), prepend the new base's sequences, and — when the new base was
tag-addressed — write the `rebase` label from the new base's resolved
digest `dN`. -/
def spliceData (origData oldData newData : ImageData) (newBase : ImageName)
    (dN : String) : Option (Manifest × Config) :=
  match goSliceFrom origData.manifest.layers oldData.manifest.layers.length,
        goSliceFrom origData.config.history oldData.config.history.length,
        goSliceFrom origData.config.rootFS.diffIDs oldData.config.rootFS.diffIDs.length with
  | some layersTail, some histTail, some diffTail =>
    let m' := { origData.manifest with layers := newData.manifest.layers ++ layersTail }
    let c₁ := { origData.config with
      history := newData.config.history ++ histTail,
      rootFS := { origData.config.rootFS with
        diffIDs := newData.config.rootFS.diffIDs ++ diffTail } }
    let c₂ :=
      if ¬newBase.isDigest then
        let was : ImageName := ⟨newBase.reg, newBase.repo, "", dN⟩
        let lbl := was.render ++ " " ++ newBase.render
        { c₁ with labels := some (setLabel "rebase" lbl (c₁.labels.getD [])) }
      else c₁
    some (m', c₂)
  | _, _, _ => none

/-- `Rebase` after both bases are in hand: fetch the two bases, run the
basis check, transfer the new base's layers (full mirror when the
registries differ, cross-repo mount otherwise), splice via `spliceData`
(a `none` propagates the panic), and push. -/
def rebaseWithBases (w : World) (orig : ImageName) (origData : ImageData)
    (oldBase newBase rebased : ImageName) (ev₁ : List NetEvent) : RResult :=
  let (ev₂, r₂) := getImageData w oldBase
  match r₂ with
  | .error e => ⟨ev₁ ++ ev₂, .err (.getOldBase e)⟩
  | .ok (oldData, _) =>
    let (ev₃, r₃) := getImageData w newBase
    match r₃ with
    | .error e => ⟨ev₁ ++ ev₂ ++ ev₃, .err (.getNewBase e)⟩
    | .ok (newData, newBaseDigest) =>
      let evs := ev₁ ++ ev₂ ++ ev₃
      match basisLoop origData.manifest.layers oldData.manifest.layers with
      | none => ⟨evs, .panicked⟩
      | some false => ⟨evs, .err (.notBasedOn orig oldBase)⟩
      | some true =>
        let (ev₄, merr) :=
          if newBase.reg ≠ rebased.reg then mirrorGo w rebased newBase newData.manifest
          else mountGo w rebased newBase newData.manifest
        match merr with
        | some e => ⟨evs ++ ev₄, .err e⟩
        | none =>
          match spliceData origData oldData newData newBase newBaseDigest with
          | none => ⟨evs ++ ev₄, .panicked⟩
          | some (m', c₂) =>
            let (ev₅, out) := finishPush w rebased m' c₂
            ⟨evs ++ ev₄ ++ ev₅, out⟩

/-- `Rebaser.Rebase`: reject a digest-addressed target, fetch the
original, reject an inconsistently supplied base pair, derive missing
bases from the `rebase` label, and hand off to the main sequence. -/
def RebaseRun (w : World) (orig : ImageName) (oldBase newBase : Option ImageName)
    (rebased : ImageName) : RResult :=
  if rebased.isDigest then ⟨[], .err .rebasedIsDigest⟩
  else
    let (ev₁, r₁) := getImageData w orig
    match r₁ with
    | .error e => ⟨ev₁, .err (.getOriginal e)⟩
    | .ok (origData, _) =>
      match oldBase, newBase with
      | none, some _ => ⟨ev₁, .err .basePairMismatch⟩
      | some _, none => ⟨ev₁, .err .basePairMismatch⟩
      | none, none =>
        (match getBasesFromLabel origData.config with
        | .error e => ⟨ev₁, .err e⟩
        | .ok (ob, nb) => rebaseWithBases w orig origData ob nb rebased ev₁)
      | some ob, some nb => rebaseWithBases w orig origData ob nb rebased ev₁

/-! ## The later engine revision (src/unnamed/part_003) -/

/-- The per-index digest comparison of the later revision's basis check. -/
def basisLoop003Aux (origDigests : List String) (i : Nat) : List String → Bool
  | [] => true
  | d :: rest =>
    match origDigests[i]? with
    | none => false
    | some d' => if d' ≠ d then false else basisLoop003Aux origDigests (i + 1) rest

/-- The basis check of the later engine revision: an explicit length guard
(`len(oldBaseLayers) > len(origLayers)` fails with the "not based on"
error) followed by the per-index digest comparison; `false` is the
descriptive "is not based on" error, `true` lets the rebase proceed. -/
def basisCheck003 (origDigests oldDigests : List String) : Bool :=
  if origDigests.length < oldDigests.length then false
  else basisLoop003Aux origDigests 0 oldDigests

/-! ## The authenticating transport (`pkg/transport`)

`transport.RoundTrip` is modelled as a function of the per-host cache and
the request, against a world of the inner round-tripper, the Docker config
file, and the credential-helper processes. HTTP headers are ASCII, so Go's
byte indices coincide with character indices in the header parser. -/

/-- An outbound request, reduced to what the transport reads: the target
host, a distinguishing path, and the `Authorization` header if the caller
set one. -/
structure Request where
  host : String
  path : String
  authHeader : Option String
deriving DecidableEq

/-- A response, reduced to what the transport reads: the status, the
`Www-Authenticate` header (empty when absent) and the body. -/
structure Response where
  status : Nat
  wwwAuth : String
  body : String
deriving DecidableEq

/-- A request reaching the inner round-tripper: the caller's request (with
whatever `Authorization` the transport attached) or the token-exchange GET. -/
inductive TReq where
  | main (r : Request)
  | tokenGet (url : String)
deriving DecidableEq

/-- The decoded `~/.docker/config.json`: `credHelpers` and `auths`
(Go maps carry no order; the association-list order stands in for the
randomized map iteration order). -/
structure DockerConfig where
  credHelpers : List (String × String)
  auths : List (String × String)

/-- The transport's environment: the inner round-tripper, the config file
(`none` models an open or decode failure) and the credential helpers
(`none` models a failed invocation or malformed output; a value is the
base64 of `username:secret`). -/
structure TWorld where
  inner : TReq → Response
  dockerConfig : Option DockerConfig
  helperOut : String → Option String

/-- Observable actions of one `RoundTrip` call, in order. -/
inductive TEvent where
  | configRead
  | helperInvoked (name : String)
  | innerCall (q : TReq)
deriving DecidableEq

/-- Errors `RoundTrip` returns. -/
inductive TErr where
  | configError
  | helperError (name : String)
  | tokenDecodeError
  | httpError (status : Nat)
deriving DecidableEq

/-- The call's outcome: a response, a returned error, or a runtime panic
(reachable only inside the challenge-header parser). -/
inductive TOutcome where
  | resp (resp : Response)
  | err (e : TErr)
  | panicked
deriving DecidableEq

/-- One `RoundTrip` call: its events, outcome, and the cache it leaves
behind. -/
structure TResult where
  events : List TEvent
  outcome : TOutcome
  cache : List (String × String)
deriving DecidableEq

/-- The key formats tried against the config file's host keys. -/
def hostFormats (h : String) : List String :=
  [h, "http://" ++ h, "https://" ++ h,
   "http://" ++ h ++ "/v1/", "https://" ++ h ++ "/v1/",
   "http://" ++ h ++ "/v2/", "https://" ++ h ++ "/v2/"]

/-- First config entry whose host key matches the request host under one
of the accepted formats. -/
def findCredEntry (reqHost : String) : List (String × String) → Option (String × String)
  | [] => none
  | (h, x) :: rest =>
    if (hostFormats reqHost).contains h then some (h, x) else findCredEntry reqHost rest

/-- First index of a character (`strings.Index`). -/
def idxOf (c : Char) : List Char → Option Nat
  | [] => none
  | c' :: rest =>
    if c' = c then some 0 else (idxOf c rest).map (· + 1)

/-- Go string slicing `v[i:j]`: defined for `i ≤ j ≤ len(v)`, a runtime
panic (`none`) otherwise. -/
def goSlice (v : List Char) (i j : Nat) : Option (List Char) :=
  if i ≤ j ∧ j ≤ v.length then some ((v.drop i).take (j - i)) else none

/-- Record a parsed `key="value"` pair into the `(realm, service, scope)`
accumulator. -/
def wwwAuthRecord (acc : String × String × String) (key val : String) : String × String × String :=
  let acc := if key = "realm" then (val, acc.2.1, acc.2.2) else acc
  let acc := if key = "service" then (acc.1, val, acc.2.2) else acc
  if key = "scope" then (acc.1, acc.2.1, val) else acc

/-- The loop of `parseWwwAuthenticate`: find `=`, bound the value at the
next comma at or after it (or the string end), strip the quotes by the
fixed offsets `equal+2 : end-1` (a runtime panic for malformed input,
modelled by `none`), record the pair, and continue past the comma. The
fuel is spent once per iteration, and every iteration drops at least one
character. -/
def wwwAuthLoop : Nat → List Char → (String × String × String) → Option (String × String × String)
  | 0, _, _ => none
  | fuel + 1, v, acc =>
    match idxOf '=' v with
    | none => some acc
    | some equal =>
      let commaOpt := idxOf ',' (v.drop equal)
      let endPos := match commaOpt with
        | some comma => equal + comma
        | none => v.length
      match goSlice v 0 equal, goSlice v (equal + 2) (endPos - 1) with
      | some key, some val =>
        let acc' := wwwAuthRecord acc (String.mk key) (String.mk val)
        if endPos = v.length then some acc'
        else match commaOpt with
          | some comma => wwwAuthLoop fuel (v.drop (equal + comma + 1)) acc'
          | none => some acc'
      | _, _ => none

/-- `parseWwwAuthenticate`: drop through the first space (the `Bearer `
scheme) and run the key/value loop; `none` models the runtime panic on
pathological headers. -/
def parseWwwAuthenticate (s : String) : Option (String × String × String) :=
  let v := s.toList
  let v := match idxOf ' ' v with
    | some i => v.drop (i + 1)
    | none => v
  wwwAuthLoop (v.length + 1) v ("", "", "")

/-- Decode the token-exchange response body into `struct\x7bToken string\x7d`. -/
def tokenFromBody (b : String) : Option String :=
  match goUnmarshal b with
  | some (.obj fs) =>
    (match lookupKey "token" fs with
    | none => some ""
    | some j => jsonToGoString j)
  | some .null => some ""
  | _ => none

/-- `getToken`: unauthenticated GET of `realm?service=...&scope=...`; a
200 decodes the token, anything else is an `HTTPError`. -/
def getToken (w : TWorld) (realm service scope : String) : List TEvent × Except TErr String :=
  let url := realm ++ "?service=" ++ service ++ "&scope=" ++ scope
  let resp := w.inner (.tokenGet url)
  let evs := [TEvent.innerCall (.tokenGet url)]
  if resp.status = 200 then
    match tokenFromBody resp.body with
    | some tok => (evs, .ok tok)
    | none => (evs, .error .tokenDecodeError)
  else (evs, .error (.httpError resp.status))

/-- `transport.RoundTrip`: pass through caller-set `Authorization`; reuse
a cached per-host Basic credential; otherwise read the config file, try a
credential helper, then a static `auths` entry, caching either Basic
credential by request host; with no credential, send the request bare and
on a `401` bearer challenge run the token exchange and retry once with the
Bearer token, which is never cached. -/
def roundTrip (w : TWorld) (cache : List (String × String)) (r : Request) : TResult :=
  if r.authHeader.isSome then
    ⟨[.innerCall (.main r)], .resp (w.inner (.main r)), cache⟩
  else
    match lookupLabel r.host cache with
    | some auth =>
      let r' := { r with authHeader := some ("Basic " ++ auth) }
      ⟨[.innerCall (.main r')], .resp (w.inner (.main r')), cache⟩
    | none =>
      match w.dockerConfig with
      | none => ⟨[.configRead], .err .configError, cache⟩
      | some cfg =>
        match findCredEntry r.host cfg.credHelpers with
        | some (_, helper) =>
          (match w.helperOut helper with
          | none => ⟨[.configRead, .helperInvoked helper], .err (.helperError helper), cache⟩
          | some auth =>
            let r' := { r with authHeader := some ("Basic " ++ auth) }
            ⟨[.configRead, .helperInvoked helper, .innerCall (.main r')],
              .resp (w.inner (.main r')), setLabel r.host auth cache⟩)
        | none =>
          match findCredEntry r.host cfg.auths with
          | some (_, auth) =>
            let r' := { r with authHeader := some ("Basic " ++ auth) }
            ⟨[.configRead, .innerCall (.main r')],
              .resp (w.inner (.main r')), setLabel r.host auth cache⟩
          | none =>
            let resp := w.inner (.main r)
            let evs := [TEvent.configRead, .innerCall (.main r)]
            if resp.status = 200 then ⟨evs, .resp resp, cache⟩
            else if resp.status = 401 ∧ resp.wwwAuth ≠ "" then
              match parseWwwAuthenticate resp.wwwAuth with
              | none => ⟨evs, .panicked, cache⟩
              | some (realm, service, scope) =>
                if realm = "" then ⟨evs, .resp resp, cache⟩
                else
                  let (tevs, tok) := getToken w realm service scope
                  match tok with
                  | .error e => ⟨evs ++ tevs, .err e, cache⟩
                  | .ok t =>
                    let r' := { r with authHeader := some ("Bearer " ++ t) }
                    ⟨evs ++ tevs ++ [.innerCall (.main r')],
                      .resp (w.inner (.main r')), cache⟩
            else ⟨evs, .resp resp, cache⟩

/-! ## Concrete fixtures

Closed registry worlds and image coordinates used to evaluate the model at
specific inputs. -/

/-- A layer descriptor with a fixed media type and size. -/
def dsc (d : String) : Descriptor := ⟨"lt", 1, d⟩

/-- Original image reference `r/app:latest`. -/
def origA : ImageName := ⟨"r", "app", "latest", ""⟩

/-- Old base reference `r/base@sha256:ob`. -/
def obA : ImageName := ⟨"r", "base", "", "sha256:ob"⟩

/-- New base reference `r/nb@sha256:nb`. -/
def nbA : ImageName := ⟨"r", "nb", "", "sha256:nb"⟩

/-- Rebase target reference `r/app:rb` (tag-addressed). -/
def rbA : ImageName := ⟨"r", "app", "rb", ""⟩

/-- Original config blob: two history entries and two diff-ids. -/
def cfgOStr : String :=
  "\x7b\"config\":\x7b\x7d,\"history\":[\x7b\"created\":\"t1\",\"created_by\":\"b1\"\x7d,\x7b\"created\":\"t2\",\"created_by\":\"b2\"\x7d],\"rootfs\":\x7b\"diff_ids\":[\"dA\",\"dC\"],\"type\":\"layers\"\x7d\x7d"

/-- Old base config blob: one history entry and one diff-id. -/
def cfgBStr : String :=
  "\x7b\"config\":\x7b\x7d,\"history\":[\x7b\"created\":\"t1\",\"created_by\":\"b1\"\x7d],\"rootfs\":\x7b\"diff_ids\":[\"dA\"],\"type\":\"layers\"\x7d\x7d"

/-- New base config blob: one history entry and one diff-id. -/
def cfgNStr : String :=
  "\x7b\"config\":\x7b\x7d,\"history\":[\x7b\"created\":\"tX\",\"created_by\":\"bX\"\x7d],\"rootfs\":\x7b\"diff_ids\":[\"dX\"],\"type\":\"layers\"\x7d\x7d"

/-- Original manifest: layers `[A, C]`. -/
def mOA : Manifest := ⟨2, "mt", ⟨"ct", 10, "sha256:cfgO"⟩, [dsc "A", dsc "C"]⟩

/-- Old base manifest: layers `[A]`. -/
def mBA : Manifest := ⟨2, "mt", ⟨"ct", 10, "sha256:cfgB"⟩, [dsc "A"]⟩

/-- New base manifest: layers `[X]`. -/
def mNA : Manifest := ⟨2, "mt", ⟨"ct", 10, "sha256:cfgN"⟩, [dsc "X"]⟩

/-- A registry where all three images resolve and every write succeeds. -/
def wA : World where
  manifests := fun _ repo _ =>
    if repo = "app" then (200, mOA) else if repo = "base" then (200, mBA) else (200, mNA)
  manifestHeaderDigest := fun _ _ _ => "sha256:hdr"
  blobs := fun _ _ dig =>
    if dig = "sha256:cfgO" then (200, cfgOStr)
    else if dig = "sha256:cfgB" then (200, cfgBStr)
    else if dig = "sha256:cfgN" then (200, cfgNStr)
    else (200, "layerbytes")
  mountStatus := fun _ _ _ _ => 201
  putBlobStatus := fun _ _ _ => 201
  putManifestStatus := fun _ _ _ => 201

/-- The successful run on the `wA` fixture. -/
def resA : RResult := RebaseRun wA origA (some obA) (some nbA) rbA

/-- Extract the pushed manifest of a successful outcome. -/
def okManifest (r : RResult) (dflt : Manifest) : Manifest :=
  match r.outcome with
  | .ok m _ _ => m
  | _ => dflt

/-- Extract the final config of a successful outcome. -/
def okConfig (r : RResult) (dflt : Config) : Config :=
  match r.outcome with
  | .ok _ c _ => c
  | _ => dflt

/-- Extract the uploaded config bytes of a successful outcome. -/
def okBytes (r : RResult) : String :=
  match r.outcome with
  | .ok _ _ b => b
  | _ => ""

/-- The image data a world serves for a name (a fixed default on fetch
failure, for closed statements only). -/
def imgDataOf (w : World) (n : ImageName) : ImageData :=
  match (getImageData w n).2 with
  | .ok (d, _) => d
  | .error _ => ⟨mOA, ⟨.nil, [], ⟨[], ""⟩, none⟩⟩

/-- The resolved digest a world serves for a name. -/
def digOf (w : World) (n : ImageName) : String :=
  match (getImageData w n).2 with
  | .ok (_, d) => d
  | .error _ => ""

/-- Old base manifest with MORE layers than the original, agreeing on the
original's whole layer list: `[A, C, B]` against the original's `[A, C]`. -/
def mB2 : Manifest := ⟨2, "mt", ⟨"ct", 10, "sha256:cfgB"⟩, [dsc "A", dsc "C", dsc "B"]⟩

/-- `wA` with the longer old base. -/
def wB : World := { wA with
  manifests := fun _ repo _ =>
    if repo = "app" then (200, mOA) else if repo = "base" then (200, mB2) else (200, mNA) }

/-- Old base manifest with a digest mismatch at index 1: `[A, B]` against
the original's `[A, C]`. -/
def mB3 : Manifest := ⟨2, "mt", ⟨"ct", 10, "sha256:cfgB"⟩, [dsc "A", dsc "B"]⟩

/-- `wA` with the mismatching old base. -/
def wC : World := { wA with
  manifests := fun _ repo _ =>
    if repo = "app" then (200, mOA) else if repo = "base" then (200, mB3) else (200, mNA) }

/-- A config document whose top-level `config` member is a string, not an
object. -/
def cfgBadStr : String :=
  "\x7b\"config\":\"x\",\"history\":[],\"rootfs\":\x7b\"diff_ids\":[],\"type\":\"\"\x7d\x7d"

/-- A config document with no top-level `config` member at all. -/
def cfgNoCfgStr : String :=
  "\x7b\"history\":[\x7b\"created\":\"t1\",\"created_by\":\"b1\"\x7d,\x7b\"created\":\"t2\",\"created_by\":\"b2\"\x7d],\"rootfs\":\x7b\"diff_ids\":[\"dA\",\"dC\"],\"type\":\"layers\"\x7d\x7d"

/-- `wA` with the original's config blob replaced by `cfgBadStr`. -/
def wBad : World := { wA with
  blobs := fun _ _ dig =>
    if dig = "sha256:cfgO" then (200, cfgBadStr)
    else if dig = "sha256:cfgB" then (200, cfgBStr)
    else if dig = "sha256:cfgN" then (200, cfgNStr)
    else (200, "layerbytes") }

/-- `wA` with the original's config blob replaced by `cfgNoCfgStr`. -/
def wNoCfg : World := { wA with
  blobs := fun _ _ dig =>
    if dig = "sha256:cfgO" then (200, cfgNoCfgStr)
    else if dig = "sha256:cfgB" then (200, cfgBStr)
    else if dig = "sha256:cfgN" then (200, cfgNStr)
    else (200, "layerbytes") }

/-- A two-layer manifest for the mount scenario. -/
def mMount : Manifest := ⟨2, "mt", ⟨"ct", 10, "sha256:cfgN"⟩, [dsc "L1", dsc "L2"]⟩

/-- A registry that mounts layer `L1` (201) but declines layer `L2`
(202), serves blob bodies, and accepts uploads. -/
def wMount : World where
  manifests := fun _ _ _ => (200, mMount)
  manifestHeaderDigest := fun _ _ _ => "sha256:hdr"
  blobs := fun _ _ dig => (200, "bytes-" ++ dig)
  mountStatus := fun _ _ dig _ => if dig = "L1" then 201 else 202
  putBlobStatus := fun _ _ _ => 201
  putManifestStatus := fun _ _ _ => 201

/-- A registry whose blob GET returns 404 with an error page body. -/
def w404 : World := { wA with blobs := fun _ _ _ => (404, "NOT FOUND PAGE") }

/-- The round-trip input of the byte-identity scenario: compact, keys
already sorted, one unknown field `foo` whose value contains `<`. -/
def rtIn : String :=
  "\x7b\"config\":\x7b\"labels\":null\x7d,\"foo\":\"<\",\"history\":[],\"rootfs\":\x7b\"diff_ids\":[],\"type\":\"\"\x7d\x7d"

/-- What the round trip actually produces: identical except that `<` is
HTML-escaped to `\u003c`. -/
def rtOut : String :=
  "\x7b\"config\":\x7b\"labels\":null\x7d,\"foo\":\"\\u003c\",\"history\":[],\"rootfs\":\x7b\"diff_ids\":[],\"type\":\"\"\x7d\x7d"

/-- The read-then-rewrite round trip of `configFromJSON` and `toJSON`
with nothing modified in between. -/
def configRoundTrip (s : String) : Option String := do
  let c ← configFromJSON s
  c.toJSON

/-- The splice result on the `wNoCfg` fixture (for closed statements). -/
def spliceNoCfg : Manifest × Config :=
  (spliceData (imgDataOf wNoCfg origA) (imgDataOf wNoCfg obA) (imgDataOf wNoCfg nbA)
    nbA (digOf wNoCfg nbA)).getD (mOA, (imgDataOf wNoCfg origA).config)

/-- The parsed config of the round-trip input (for closed statements). -/
def rtConfig : Config :=
  (configFromJSON rtIn).getD ⟨.nil, [], ⟨[], ""⟩, none⟩

/-- The decoded top-level fields of the round-trip input. -/
def rtFields : JsonObj :=
  match goUnmarshal rtIn with
  | some (.obj fs) => fs
  | _ => .nil

/-- The object `toJSON` marshals for the round-trip input. -/
def rtFields' : JsonObj :=
  (toJSONObj rtConfig).getD .nil

/-- The transport fixture request. -/
def reqT : Request := ⟨"h.example", "/v2/x", none⟩

/-- A config file with one credential helper for the request's host. -/
def cfgHelper : DockerConfig := ⟨[("https://h.example", "gcloud")], []⟩

/-- A transport world where the helper resolves and the registry answers
200. -/
def wHelper : TWorld where
  inner := fun _ => ⟨200, "", "ok"⟩
  dockerConfig := some cfgHelper
  helperOut := fun h => if h = "gcloud" then some "dXNlcjpwdw==" else none

/-- A transport world with no credentials for the host and a
bearer-challenging registry. -/
def wBearer : TWorld where
  inner := fun q =>
    match q with
    | .main r =>
      (match r.authHeader with
      | none => ⟨401, "Bearer realm=\"https://auth.example/token\",service=\"registry.example\",scope=\"repository:foo:pull\"", ""⟩
      | some a => if a = "Bearer tok123" then ⟨200, "", "pulled"⟩ else ⟨403, "", ""⟩)
    | .tokenGet u =>
      if u = "https://auth.example/token?service=registry.example&scope=repository:foo:pull"
      then ⟨200, "", "\x7b\"token\":\"tok123\"\x7d"⟩ else ⟨500, "", ""⟩
  dockerConfig := some ⟨[], []⟩
  helperOut := fun _ => none

/-! ## Helper lemmas -/

theorem lookupKey_setKey (k k' : String) (v : Json) :
    (o : JsonObj) → lookupKey k (setKey k' v o) = if k' = k then some v else lookupKey k o
  | .nil => by
    by_cases h : k' = k <;> simp [setKey, lookupKey, h]
  | .cons k₀ v₀ rest => by
    have ih := lookupKey_setKey k k' v rest
    by_cases h₀ : k₀ = k'
    · subst h₀
      by_cases h : k₀ = k <;> simp [setKey, lookupKey, h]
    · by_cases h : k₀ = k
      · subst h
        have hne : ¬k' = k₀ := fun hc => h₀ hc.symm
        simp [setKey, lookupKey, h₀, hne, ih]
      · simp [setKey, lookupKey, h₀, h, ih]

theorem goSliceFrom_eq_some {α : Type} {l : List α} {k : Nat} {t : List α}
    (h : goSliceFrom l k = some t) : t = l.drop k ∧ k ≤ l.length := by
  unfold goSliceFrom at h
  split at h
  · exact ⟨(Option.some.injEq _ _ ▸ h).symm, by assumption⟩
  · exact absurd h (by simp)

/-! ## C7: `getBlob` and registry statuses -/

/-- C7 (code_bug evidence): `getBlob` never inspects the HTTP status — at
the concrete failing input, a registry answering 404 with an error page,
it returns the error page as the blob stream instead of failing with an
`HTTPError`, while the sibling `getConfig` (inside `getImageData`) does
fail on the same response. The general shape is visible in the model:
for every world, `getBlob` returns `.ok` with the raw response body. -/
theorem getBlob_ignores_status :
    getBlob w404 "r" "repo" "sha256:layer"
      = ([NetEvent.blobGet "r" "repo" "sha256:layer"], .ok "NOT FOUND PAGE")
    ∧ (w404.blobs "r" "repo" "sha256:layer").1 = 404
    ∧ (∀ (w : World) (reg repo dig : String),
        getBlob w reg repo dig = ([NetEvent.blobGet reg repo dig], .ok (w.blobs reg repo dig).2)) := by
  refine ⟨rfl, rfl, fun w reg repo dig => rfl⟩

/-! ## C3: cross-repository mount and the mirror fallback -/

theorem mirrorLayers_of_put201 (w : World) (dst src : ImageName) :
    ∀ ls : List Descriptor,
      (∀ l ∈ ls, w.putBlobStatus dst.reg dst.repo l.digest = 201) →
      mirrorLayers w dst src ls
        = (ls.flatMap (fun l =>
            [NetEvent.blobGet src.reg src.repo l.digest,
             NetEvent.blobPut dst.reg dst.repo l.digest (w.blobs src.reg src.repo l.digest).2]),
           none)
  | [], _ => rfl
  | l :: rest, h => by
    have hl := h l (by simp)
    have ih := mirrorLayers_of_put201 w dst src rest (fun p hp => h p (by simp [hp]))
    simp [mirrorLayers, mirrorBlob, getBlob, putBlob, hl, ih]

theorem mountLayers_append_of_201 (w : World) (dst src : ImageName) (m : Manifest) :
    ∀ (pre rest : List Descriptor),
      (∀ p ∈ pre, w.mountStatus dst.reg dst.repo p.digest src.repo = 201) →
      mountLayers w dst src m (pre ++ rest)
        = (pre.map (fun p => NetEvent.mountPost dst.reg dst.repo p.digest src.repo)
            ++ (mountLayers w dst src m rest).1,
           (mountLayers w dst src m rest).2)
  | [], rest, _ => by simp
  | p :: pre, rest, h => by
    have hp := h p (by simp)
    have ih := mountLayers_append_of_201 w dst src m pre rest (fun q hq => h q (by simp [hq]))
    simp [mountLayers, hp, ih]

/-- C3 counterexample: with layers `[L1, L2]`, the registry mounting `L1`
(201) and declining `L2` (202), the engine mounts both and then mirrors
the *whole* manifest: the sibling `L1`, despite its successful mount, is
downloaded and re-uploaded — contradicting the claim that successfully
mounted siblings remain mount-only. -/
theorem mount_202_mirrors_mounted_sibling :
    mountGo wMount rbA nbA mMount
      = ([.mountPost "r" "app" "L1" "nb", .mountPost "r" "app" "L2" "nb",
          .blobGet "r" "nb" "L1", .blobPut "r" "app" "L1" "bytes-L1",
          .blobGet "r" "nb" "L2", .blobPut "r" "app" "L2" "bytes-L2"], none)
    ∧ NetEvent.blobGet "r" "nb" "L1" ∈ (mountGo wMount rbA nbA mMount).1
    ∧ NetEvent.blobPut "r" "app" "L1" "bytes-L1" ∈ (mountGo wMount rbA nbA mMount).1 := by
  refine ⟨by rfl, by decide, by decide⟩

/-- C3 amended: layers whose mount POST returns 201 before any other
status are mounted without transfer, and if every layer does, no bytes
move (a); the first 202 aborts the mount loop and falls back to mirroring
the whole manifest — every layer, the already-mounted siblings included,
is downloaded and re-uploaded (b, d); any status other than 201/202 fails
with an `HTTPError` carrying it (c). -/
theorem mount_fallback_behavior :
    (∀ (w : World) (dst src : ImageName) (m : Manifest),
      dst.repo ≠ src.repo →
      (∀ l ∈ m.layers, w.mountStatus dst.reg dst.repo l.digest src.repo = 201) →
      mountGo w dst src m
        = (m.layers.map (fun l => NetEvent.mountPost dst.reg dst.repo l.digest src.repo), none))
    ∧ (∀ (w : World) (dst src : ImageName) (m : Manifest) (pre post : List Descriptor) (l : Descriptor),
      dst.repo ≠ src.repo →
      m.layers = pre ++ l :: post →
      (∀ p ∈ pre, w.mountStatus dst.reg dst.repo p.digest src.repo = 201) →
      w.mountStatus dst.reg dst.repo l.digest src.repo = 202 →
      mountGo w dst src m
        = ((pre ++ [l]).map (fun p => NetEvent.mountPost dst.reg dst.repo p.digest src.repo)
            ++ (mirrorGo w dst src m).1,
           (mirrorGo w dst src m).2))
    ∧ (∀ (w : World) (dst src : ImageName) (m : Manifest) (pre post : List Descriptor) (l : Descriptor),
      dst.repo ≠ src.repo →
      m.layers = pre ++ l :: post →
      (∀ p ∈ pre, w.mountStatus dst.reg dst.repo p.digest src.repo = 201) →
      w.mountStatus dst.reg dst.repo l.digest src.repo ≠ 201 →
      w.mountStatus dst.reg dst.repo l.digest src.repo ≠ 202 →
      mountGo w dst src m
        = ((pre ++ [l]).map (fun p => NetEvent.mountPost dst.reg dst.repo p.digest src.repo),
           some (.httpError (w.mountStatus dst.reg dst.repo l.digest src.repo))))
    ∧ (∀ (w : World) (dst src : ImageName) (m : Manifest),
      (∀ l ∈ m.layers, w.putBlobStatus dst.reg dst.repo l.digest = 201) →
      mirrorGo w dst src m
        = (m.layers.flatMap (fun l =>
            [NetEvent.blobGet src.reg src.repo l.digest,
             NetEvent.blobPut dst.reg dst.repo l.digest (w.blobs src.reg src.repo l.digest).2]),
           none)) := by
  refine ⟨?_, ?_, ?_, ?_⟩
  · intro w dst src m hrepo hall
    have h := mountLayers_append_of_201 w dst src m m.layers [] hall
    simp only [List.append_nil] at h
    simp [mountGo, hrepo, h, mountLayers]
  · intro w dst src m pre post l hrepo hsplit hpre h202
    have h := mountLayers_append_of_201 w dst src m pre (l :: post) hpre
    simp [mountGo, hrepo, hsplit, h, mountLayers, h202, mirrorGo]
  · intro w dst src m pre post l hrepo hsplit hpre h201 h202
    have h := mountLayers_append_of_201 w dst src m pre (l :: post) hpre
    simp [mountGo, hrepo, hsplit, h, mountLayers, h201, h202]
  · intro w dst src m hput
    exact mirrorLayers_of_put201 w dst src m.layers hput

/-! ## C2: the basis check -/

theorem basisLoopAux_of_agree (orig : List Descriptor) :
    ∀ (old : List Descriptor) (i : Nat),
      old.map Descriptor.digest = ((orig.drop i).map Descriptor.digest).take old.length →
      basisLoopAux orig i old = some true
  | [], _, _ => rfl
  | l :: rest, i, h => by
    cases hd : orig.drop i with
    | nil => rw [hd] at h; exact absurd h (by simp)
    | cons d t =>
      rw [hd] at h
      simp only [List.map_cons, List.length_cons, List.take_succ_cons] at h
      obtain ⟨h1, h2⟩ := List.cons.inj h
      have hidx : orig[i]? = some d := by
        have h0 : (orig.drop i)[0]? = some d := by rw [hd]; simp
        rwa [List.getElem?_drop, Nat.add_zero] at h0
      have hdrop : orig.drop (i + 1) = t := by
        have h' := List.drop_drop 1 i orig
        rw [hd] at h'
        simpa using h'.symm
      have ih := basisLoopAux_of_agree orig rest (i + 1) (by rw [hdrop]; exact h2)
      simp [basisLoopAux, hidx, h1, ih]

theorem basisLoopAux_mismatch (orig : List Descriptor) (l : Descriptor) (rest : List Descriptor)
    (d : Descriptor) (hne : d.digest ≠ l.digest) :
    ∀ (pre : List Descriptor) (i : Nat),
      pre.map Descriptor.digest = ((orig.drop i).map Descriptor.digest).take pre.length →
      orig[i + pre.length]? = some d →
      basisLoopAux orig i (pre ++ l :: rest) = some false
  | [], i, _, hd => by
    simp only [List.length_nil, Nat.add_zero] at hd
    simp [basisLoopAux, hd, hne]
  | p :: pre, i, h, hd => by
    cases hdr : orig.drop i with
    | nil => rw [hdr] at h; exact absurd h (by simp)
    | cons d₀ t =>
      rw [hdr] at h
      simp only [List.map_cons, List.length_cons, List.take_succ_cons] at h
      obtain ⟨h1, h2⟩ := List.cons.inj h
      have hidx : orig[i]? = some d₀ := by
        have h0 : (orig.drop i)[0]? = some d₀ := by rw [hdr]; simp
        rwa [List.getElem?_drop, Nat.add_zero] at h0
      have hdrop : orig.drop (i + 1) = t := by
        have h' := List.drop_drop 1 i orig
        rw [hdr] at h'
        simpa using h'.symm
      have hd' : orig[(i + 1) + pre.length]? = some d := by
        have : i + (p :: pre).length = (i + 1) + pre.length := by simp; omega
        rwa [this] at hd
      have ih := basisLoopAux_mismatch orig l rest d hne pre (i + 1) (by rw [hdrop]; exact h2) hd'
      simp [basisLoopAux, hidx, h1, ih]

theorem basisLoopAux_overrun (orig : List Descriptor) :
    ∀ (old : List Descriptor) (i : Nat),
      (orig.drop i).map Descriptor.digest
        = (old.map Descriptor.digest).take (orig.length - i) →
      orig.length - i < old.length →
      basisLoopAux orig i old = none
  | [], _, _, hlen => by simp at hlen
  | l :: rest, i, h, hlen => by
    cases hdr : orig.drop i with
    | nil =>
      have hidx : orig[i]? = none := by
        have h0 : (orig.drop i)[0]? = none := by rw [hdr]; simp
        rwa [List.getElem?_drop, Nat.add_zero] at h0
      simp [basisLoopAux, hidx]
    | cons d t =>
      have hlen' : i < orig.length := by
        by_contra hc
        rw [List.drop_eq_nil_of_le (Nat.le_of_not_lt hc)] at hdr
        exact List.noConfusion hdr
      have hpos : 0 < orig.length - i := by omega
      rw [hdr] at h
      obtain ⟨k, hk⟩ : ∃ k, orig.length - i = k + 1 := ⟨orig.length - i - 1, by omega⟩
      rw [hk] at h
      simp only [List.map_cons, List.take_succ_cons] at h
      obtain ⟨h1, h2⟩ := List.cons.inj h
      have hidx : orig[i]? = some d := by
        have h0 : (orig.drop i)[0]? = some d := by rw [hdr]; simp
        rwa [List.getElem?_drop, Nat.add_zero] at h0
      have hdrop : orig.drop (i + 1) = t := by
        have h' := List.drop_drop 1 i orig
        rw [hdr] at h'
        simpa using h'.symm
      have hk' : orig.length - (i + 1) = k := by
        have : i + (k + 1) = orig.length := by omega
        omega
      have ih := basisLoopAux_overrun orig rest (i + 1)
        (by rw [hdrop, hk']; exact h2) (by simp at hlen; omega)
      simp [basisLoopAux, hidx, h1, ih]

theorem rebaseRun_to_withBases {w : World} {orig rebased : ImageName} {ob nb : ImageName}
    {evO : List NetEvent} {origData : ImageData} {dO : String}
    (hdig : rebased.isDigest = false)
    (hO : getImageData w orig = (evO, .ok (origData, dO))) :
    RebaseRun w orig (some ob) (some nb) rebased
      = rebaseWithBases w orig origData ob nb rebased evO := by
  simp [RebaseRun, hdig, hO]

theorem rebaseWithBases_notBased {w : World} {orig rebased ob nb : ImageName}
    {evO evB evN : List NetEvent} {origData oldData newData : ImageData} {dB dN : String}
    (hB : getImageData w ob = (evB, .ok (oldData, dB)))
    (hN : getImageData w nb = (evN, .ok (newData, dN)))
    (hbasis : basisLoop origData.manifest.layers oldData.manifest.layers = some false) :
    rebaseWithBases w orig origData ob nb rebased evO
      = ⟨evO ++ evB ++ evN, .err (.notBasedOn orig ob)⟩ := by
  simp [rebaseWithBases, hB, hN, hbasis]

/-- C2 counterexample: old base layers `[A, C, B]` against the original's
`[A, C]` — every in-range index agrees, so the basis loop runs past the
original's layers and the engine panics with an index-out-of-range after
the three fetches, instead of failing with the descriptive "not based on"
error the claim promises for a longer old base. -/
theorem basis_check_overrun_panics :
    RebaseRun wB origA (some obA) (some nbA) rbA
      = ⟨[.manifestGet "r" "app" "latest", .blobGet "r" "app" "sha256:cfgO",
          .manifestGet "r" "base" "sha256:ob", .blobGet "r" "base" "sha256:cfgB",
          .manifestGet "r" "nb" "sha256:nb", .blobGet "r" "nb" "sha256:cfgN"],
         .panicked⟩ := by
  rfl

/-- C2 amended: (a) whenever the old base's layer digests are a prefix of
the original's, the basis check passes; (b) a digest mismatch at the first
differing in-range index makes `Rebase` return the descriptive "not based
on" error right after the three fetches — no mount, upload or splice
happens — regardless of what follows the mismatch; (c) when the old base
has MORE layers than the original and agrees with all of the original's,
the transport-package engine indexes out of range and panics rather than
returning the error; (d) the later engine revision (part_003) returns the
descriptive error in that longer-old-base case thanks to its explicit
length guard. -/
theorem basis_check_behavior :
    (∀ (orig old : List Descriptor),
      old.map Descriptor.digest = (orig.map Descriptor.digest).take old.length →
      basisLoop orig old = some true)
    ∧ (∀ (w : World) (orig ob nb rebased : ImageName)
        (origData oldData newData : ImageData) (dO dB dN : String)
        (evO evB evN : List NetEvent) (pre rest : List Descriptor) (l d : Descriptor),
      rebased.isDigest = false →
      getImageData w orig = (evO, .ok (origData, dO)) →
      getImageData w ob = (evB, .ok (oldData, dB)) →
      getImageData w nb = (evN, .ok (newData, dN)) →
      oldData.manifest.layers = pre ++ l :: rest →
      pre.map Descriptor.digest
        = (origData.manifest.layers.map Descriptor.digest).take pre.length →
      origData.manifest.layers[pre.length]? = some d →
      d.digest ≠ l.digest →
      RebaseRun w orig (some ob) (some nb) rebased
        = ⟨evO ++ evB ++ evN, .err (.notBasedOn orig ob)⟩)
    ∧ (∀ (orig old : List Descriptor),
      orig.map Descriptor.digest = (old.map Descriptor.digest).take orig.length →
      orig.length < old.length →
      basisLoop orig old = none)
    ∧ (∀ (origD oldD : List String),
      origD.length < oldD.length →
      basisCheck003 origD oldD = false) := by
  refine ⟨?_, ?_, ?_, ?_⟩
  · intro orig old h
    exact basisLoopAux_of_agree orig old 0 (by simpa using h)
  · intro w orig ob nb rebased origData oldData newData dO dB dN evO evB evN pre rest l d
      hdig hO hB hN hsplit hpre hd hne
    rw [rebaseRun_to_withBases hdig hO]
    apply rebaseWithBases_notBased hB hN
    rw [hsplit]
    exact basisLoopAux_mismatch origData.manifest.layers l rest d hne pre 0
      (by simpa using hpre) (by simpa using hd)
  · intro orig old h hlen
    exact basisLoopAux_overrun orig old 0 (by simpa using h) (by simpa using hlen)
  · intro origD oldD h
    simp [basisCheck003, h]

/-- C2 witness: the mismatch fixture (old base `[A, B]` against the
original's `[A, C]`, digests differing at index 1) satisfies the amended
theorem's hypotheses, and the run returns the descriptive error right
after the six fetch requests. -/
theorem basis_check_behavior_witness :
    mB3.layers = [dsc "A"] ++ dsc "B" :: []
    ∧ mOA.layers[List.length [dsc "A"]]? = some (dsc "C")
    ∧ (dsc "C").digest ≠ (dsc "B").digest
    ∧ RebaseRun wC origA (some obA) (some nbA) rbA
      = ⟨(getImageData wC origA).1 ++ (getImageData wC obA).1 ++ (getImageData wC nbA).1,
         .err (.notBasedOn origA obA)⟩ := by
  refine ⟨rfl, rfl, by decide, ?_⟩
  refine basis_check_behavior.2.1 wC origA obA nbA rbA
    (imgDataOf wC origA) (imgDataOf wC obA) (imgDataOf wC nbA)
    (digOf wC origA) (digOf wC obA) (digOf wC nbA)
    (getImageData wC origA).1 (getImageData wC obA).1 (getImageData wC nbA).1
    [dsc "A"] [] (dsc "B") (dsc "C")
    (by rfl) (by rfl) (by rfl) (by rfl) (by rfl) (by rfl) (by rfl) (by decide)

/-! ## C6: preconditions and when they run -/

theorem getImageData_fst_ne_nil (w : World) (n : ImageName) : (getImageData w n).1 ≠ [] := by
  unfold getImageData
  dsimp only
  split
  · simp
  · split
    · simp
    · split <;> simp

/-- C6 counterexample: calling `Rebase` with `oldBase` omitted and
`newBase` supplied does return the fatal pair-consistency error, but only
after the original image's manifest and config have already been fetched —
two network requests precede the check, contradicting the claim that both
precondition checks run before any network I/O. -/
theorem pair_check_after_fetch :
    RebaseRun wA origA none (some nbA) rbA
      = ⟨[.manifestGet "r" "app" "latest", .blobGet "r" "app" "sha256:cfgO"],
         .err .basePairMismatch⟩
    ∧ (RebaseRun wA origA none (some nbA) rbA).events ≠ [] := by
  exact ⟨rfl, by decide⟩

/-- C6 amended: the digest-addressed-target check runs first and returns
the fatal error before any network request (the event trace is empty);
the base-pair consistency check also returns a fatal error, but it runs
only after the GET of the original image — its error comes with a
non-empty request trace, and if that GET fails, the pair violation is
never even reported (the fetch error is returned instead). -/
theorem precondition_checks :
    (∀ (w : World) (orig : ImageName) (ob nb : Option ImageName) (rebased : ImageName),
      rebased.isDigest = true →
      RebaseRun w orig ob nb rebased = ⟨[], .err .rebasedIsDigest⟩)
    ∧ (∀ (w : World) (orig nb rebased : ImageName) (ev : List NetEvent)
        (od : ImageData) (d : String),
      rebased.isDigest = false →
      getImageData w orig = (ev, .ok (od, d)) →
      RebaseRun w orig none (some nb) rebased = ⟨ev, .err .basePairMismatch⟩ ∧ ev ≠ [])
    ∧ (∀ (w : World) (orig ob rebased : ImageName) (ev : List NetEvent)
        (od : ImageData) (d : String),
      rebased.isDigest = false →
      getImageData w orig = (ev, .ok (od, d)) →
      RebaseRun w orig (some ob) none rebased = ⟨ev, .err .basePairMismatch⟩ ∧ ev ≠ [])
    ∧ (∀ (w : World) (orig nb rebased : ImageName) (ev : List NetEvent) (e : FetchErr),
      rebased.isDigest = false →
      getImageData w orig = (ev, .error e) →
      RebaseRun w orig none (some nb) rebased = ⟨ev, .err (.getOriginal e)⟩) := by
  refine ⟨?_, ?_, ?_, ?_⟩
  · intro w orig ob nb rebased h
    simp [RebaseRun, h]
  · intro w orig nb rebased ev od d hdig hO
    have hne : ev ≠ [] := by
      have h := getImageData_fst_ne_nil w orig
      rw [hO] at h
      exact h
    exact ⟨by simp [RebaseRun, hdig, hO], hne⟩
  · intro w orig ob rebased ev od d hdig hO
    have hne : ev ≠ [] := by
      have h := getImageData_fst_ne_nil w orig
      rw [hO] at h
      exact h
    exact ⟨by simp [RebaseRun, hdig, hO], hne⟩
  · intro w orig nb rebased ev e hdig hO
    simp [RebaseRun, hdig, hO]

/-- C6 witness: a digest-addressed target is rejected with an empty
request trace, and the pair check at the `wA` fixture fires after the two
fetch requests. -/
theorem precondition_checks_witness :
    (ImageName.isDigest ⟨"r", "app", "", "sha256:t"⟩ = true
      ∧ RebaseRun wA origA (some obA) (some nbA) ⟨"r", "app", "", "sha256:t"⟩
          = ⟨[], .err .rebasedIsDigest⟩)
    ∧ (RebaseRun wA origA (some obA) none rbA
          = ⟨(getImageData wA origA).1, .err .basePairMismatch⟩
      ∧ (getImageData wA origA).1 ≠ []) := by
  refine ⟨⟨by decide, ?_⟩, ?_⟩
  · exact precondition_checks.1 wA origA (some obA) (some nbA) ⟨"r", "app", "", "sha256:t"⟩
      (by decide)
  · exact precondition_checks.2.2.1 wA origA obA rbA (getImageData wA origA).1
      (imgDataOf wA origA) (digOf wA origA) (by decide) (by rfl)

/-! ## Inversion lemmas for successful runs -/

theorem finishPush_ok {w : World} {rebased : ImageName} {m : Manifest} {c : Config}
    {ev : List NetEvent} {m₂ : Manifest} {c₂ : Config} {b : String}
    (h : finishPush w rebased m c = (ev, .ok m₂ c₂ b)) :
    c₂ = c ∧ c.toJSON = some b
    ∧ m₂ = { m with config := { m.config with
        digest := sha256Hex b, size := ((strBytes b).length : Int) } }
    ∧ NetEvent.blobPut rebased.reg rebased.repo (sha256Hex b) b ∈ ev := by
  cases hj : c.toJSON with
  | none =>
    unfold finishPush at h
    rw [hj] at h
    exact absurd h (by simp)
  | some b' =>
    unfold finishPush at h
    rw [hj] at h
    simp only [putBlob] at h
    split at h
    · exact absurd h (by simp)
    · split at h
      · exact absurd h (by simp)
      · obtain ⟨hev, hout⟩ := Prod.mk.inj h
        obtain ⟨hm, hc, hb⟩ := ROutcome.ok.inj hout
        subst hb
        exact ⟨hc.symm, rfl, hm.symm, by rw [← hev]; simp⟩

theorem spliceData_some {origData oldData newData : ImageData} {nb : ImageName}
    {dN : String} {m' : Manifest} {c₂ : Config}
    (h : spliceData origData oldData newData nb dN = some (m', c₂)) :
    m'.layers
      = newData.manifest.layers
        ++ origData.manifest.layers.drop oldData.manifest.layers.length
    ∧ oldData.manifest.layers.length ≤ origData.manifest.layers.length
    ∧ c₂.history
      = newData.config.history
        ++ origData.config.history.drop oldData.config.history.length
    ∧ oldData.config.history.length ≤ origData.config.history.length
    ∧ c₂.rootFS.diffIDs
      = newData.config.rootFS.diffIDs
        ++ origData.config.rootFS.diffIDs.drop oldData.config.rootFS.diffIDs.length
    ∧ oldData.config.rootFS.diffIDs.length ≤ origData.config.rootFS.diffIDs.length
    ∧ c₂.allData = origData.config.allData
    ∧ m'.config = origData.manifest.config := by
  unfold spliceData at h
  cases hs1 : goSliceFrom origData.manifest.layers oldData.manifest.layers.length with
  | none => rw [hs1] at h; exact absurd h (by simp)
  | some layersTail =>
    cases hs2 : goSliceFrom origData.config.history oldData.config.history.length with
    | none => rw [hs1, hs2] at h; exact absurd h (by simp)
    | some histTail =>
      cases hs3 : goSliceFrom origData.config.rootFS.diffIDs
          oldData.config.rootFS.diffIDs.length with
      | none => rw [hs1, hs2, hs3] at h; exact absurd h (by simp)
      | some diffTail =>
        rw [hs1, hs2, hs3] at h
        dsimp only at h
        obtain ⟨hl1, hlen1⟩ := goSliceFrom_eq_some hs1
        obtain ⟨hl2, hlen2⟩ := goSliceFrom_eq_some hs2
        obtain ⟨hl3, hlen3⟩ := goSliceFrom_eq_some hs3
        obtain ⟨hm, hc⟩ := Prod.mk.inj (Option.some.inj h)
        subst hl1 hl2 hl3
        refine ⟨?_, hlen1, ?_, hlen2, ?_, hlen3, ?_, ?_⟩
        · rw [← hm]
        · rw [← hc]; split <;> rfl
        · rw [← hc]; split <;> rfl
        · rw [← hc]; split <;> rfl
        · rw [← hm]

theorem rebaseWithBases_ok_inv {w : World} {orig ob nb rebased : ImageName}
    {evO : List NetEvent} {origData : ImageData} {res : RResult}
    {m : Manifest} {c : Config} {b : String}
    (hres : rebaseWithBases w orig origData ob nb rebased evO = res)
    (hok : res.outcome = .ok m c b) :
    ∃ (oldData newData : ImageData) (dB dN : String) (evB evN : List NetEvent),
      getImageData w ob = (evB, .ok (oldData, dB))
      ∧ getImageData w nb = (evN, .ok (newData, dN))
      ∧ m.layers
          = newData.manifest.layers
            ++ origData.manifest.layers.drop oldData.manifest.layers.length
      ∧ oldData.manifest.layers.length ≤ origData.manifest.layers.length
      ∧ c.history
          = newData.config.history
            ++ origData.config.history.drop oldData.config.history.length
      ∧ oldData.config.history.length ≤ origData.config.history.length
      ∧ c.rootFS.diffIDs
          = newData.config.rootFS.diffIDs
            ++ origData.config.rootFS.diffIDs.drop oldData.config.rootFS.diffIDs.length
      ∧ oldData.config.rootFS.diffIDs.length ≤ origData.config.rootFS.diffIDs.length
      ∧ c.allData = origData.config.allData
      ∧ c.toJSON = some b
      ∧ m.config.digest = sha256Hex b
      ∧ m.config.size = ((strBytes b).length : Int)
      ∧ NetEvent.blobPut rebased.reg rebased.repo (sha256Hex b) b ∈ res.events := by
  unfold rebaseWithBases at hres
  rcases hgB : getImageData w ob with ⟨evB, rB⟩
  rw [hgB] at hres
  cases rB with
  | error e =>
    rw [← hres] at hok
    exact absurd hok (by simp)
  | ok pB =>
    rcases pB with ⟨oldData, dB⟩
    rcases hgN : getImageData w nb with ⟨evN, rN⟩
    rw [hgN] at hres
    cases rN with
    | error e =>
      rw [← hres] at hok
      exact absurd hok (by simp)
    | ok pN =>
      rcases pN with ⟨newData, dN⟩
      dsimp only at hres
      cases hbl : basisLoop origData.manifest.layers oldData.manifest.layers with
      | none =>
        rw [hbl] at hres
        rw [← hres] at hok
        exact absurd hok (by simp)
      | some bl =>
        rw [hbl] at hres
        cases bl with
        | false =>
          rw [← hres] at hok
          exact absurd hok (by simp)
        | true =>
          dsimp only at hres
          rcases htr : (if nb.reg ≠ rebased.reg
              then mirrorGo w rebased nb newData.manifest
              else mountGo w rebased nb newData.manifest) with ⟨ev₄, merr⟩
          rw [htr] at hres
          cases merr with
          | some e =>
            rw [← hres] at hok
            exact absurd hok (by simp)
          | none =>
            dsimp only at hres
            cases hsd : spliceData origData oldData newData nb dN with
            | none =>
              rw [hsd] at hres
              rw [← hres] at hok
              exact absurd hok (by simp)
            | some p =>
              rcases p with ⟨m', c₂⟩
              rw [hsd] at hres
              dsimp only at hres
              rcases hfp : finishPush w rebased m' c₂ with ⟨ev₅, out⟩
              rw [hfp] at hres
              rw [← hres] at hok
              dsimp only at hok
              rw [hok] at hfp
              obtain ⟨hc, hjson, hm, hmem⟩ := finishPush_ok hfp
              obtain ⟨hl1, hlen1, hl2, hlen2, hl3, hlen3, hall, hcfg⟩ := spliceData_some hsd
              refine ⟨oldData, newData, dB, dN, evB, evN, rfl, rfl, ?_, hlen1, ?_, hlen2,
                ?_, hlen3, ?_, ?_, ?_, ?_, ?_⟩
              · rw [hm]; exact hl1
              · rw [hc]; exact hl2
              · rw [hc]; exact hl3
              · rw [hc]; exact hall
              · rw [hc]; exact hjson
              · rw [hm]
              · rw [hm]
              · rw [← hres]
                simp only [RResult.events]
                exact List.mem_append.mpr (Or.inr hmem)

/-! ## C1: splice correctness -/

theorem take_len_append {α : Type} : ∀ (l₁ l₂ : List α), (l₁ ++ l₂).take l₁.length = l₁
  | [], _ => rfl
  | a :: rest, l₂ => by
    simp only [List.cons_append, List.length_cons, List.take_succ_cons]
    rw [take_len_append rest l₂]

/-- C1: on every rebase call whose three fetches succeed, whose basis
check passes and which completes with a pushed manifest, the manifest's
layer list and the config's history and diff-ids lists each equal the new
base's sequence followed by the original's sequence with its first
`len(oldBase-sequence)` elements dropped; consequently each spliced length
is `len(newBase) + len(original) - len(oldBase)` and the first
`len(newBase)` elements are exactly the new base's sequence. -/
theorem rebase_splice_correct
    (w : World) (orig ob nb rebased : ImageName)
    (origData oldData newData : ImageData) (dO dB dN : String)
    (evO evB evN : List NetEvent) (m : Manifest) (c : Config) (b : String)
    (hdig : rebased.isDigest = false)
    (hO : getImageData w orig = (evO, .ok (origData, dO)))
    (hB : getImageData w ob = (evB, .ok (oldData, dB)))
    (hN : getImageData w nb = (evN, .ok (newData, dN)))
    (_hbasis : basisLoop origData.manifest.layers oldData.manifest.layers = some true)
    (hok : (RebaseRun w orig (some ob) (some nb) rebased).outcome = .ok m c b) :
    m.layers
      = newData.manifest.layers
        ++ origData.manifest.layers.drop oldData.manifest.layers.length
    ∧ c.history
      = newData.config.history
        ++ origData.config.history.drop oldData.config.history.length
    ∧ c.rootFS.diffIDs
      = newData.config.rootFS.diffIDs
        ++ origData.config.rootFS.diffIDs.drop oldData.config.rootFS.diffIDs.length
    ∧ (m.layers.length : Int)
      = newData.manifest.layers.length + origData.manifest.layers.length
        - oldData.manifest.layers.length
    ∧ (c.history.length : Int)
      = newData.config.history.length + origData.config.history.length
        - oldData.config.history.length
    ∧ (c.rootFS.diffIDs.length : Int)
      = newData.config.rootFS.diffIDs.length + origData.config.rootFS.diffIDs.length
        - oldData.config.rootFS.diffIDs.length
    ∧ m.layers.take newData.manifest.layers.length = newData.manifest.layers
    ∧ c.history.take newData.config.history.length = newData.config.history
    ∧ c.rootFS.diffIDs.take newData.config.rootFS.diffIDs.length
      = newData.config.rootFS.diffIDs := by
  rw [rebaseRun_to_withBases hdig hO] at hok
  obtain ⟨oldData', newData', dB', dN', evB', evN', hgB, hgN, hl1, hlen1, hl2, hlen2,
    hl3, hlen3, _, _, _, _, _⟩ := rebaseWithBases_ok_inv rfl hok
  rw [hB] at hgB
  rw [hN] at hgN
  obtain ⟨hevB, hRB⟩ := Prod.mk.inj hgB
  obtain ⟨hevN, hRN⟩ := Prod.mk.inj hgN
  obtain ⟨holdD, _⟩ := Prod.mk.inj (Except.ok.inj hRB)
  obtain ⟨hnewD, _⟩ := Prod.mk.inj (Except.ok.inj hRN)
  subst holdD hnewD
  refine ⟨hl1, hl2, hl3, ?_, ?_, ?_, ?_, ?_, ?_⟩
  · rw [hl1]
    simp only [List.length_append, List.length_drop]
    omega
  · rw [hl2]
    simp only [List.length_append, List.length_drop]
    omega
  · rw [hl3]
    simp only [List.length_append, List.length_drop]
    omega
  · rw [hl1, take_len_append]
  · rw [hl2, take_len_append]
  · rw [hl3, take_len_append]

/-- C1 witness: on the `wA` fixture (original layers `[A, C]`, old base
`[A]`, new base `[X]`) the hypotheses hold concretely and the pushed
manifest's layers are `[X, C]` with the spliced history and diff-ids. -/
theorem rebase_splice_correct_witness :
    basisLoop (imgDataOf wA origA).manifest.layers (imgDataOf wA obA).manifest.layers = some true
    ∧ resA.outcome
        = .ok (okManifest resA mOA) (okConfig resA (imgDataOf wA origA).config) (okBytes resA)
    ∧ (okManifest resA mOA).layers
        = (imgDataOf wA nbA).manifest.layers
          ++ (imgDataOf wA origA).manifest.layers.drop (imgDataOf wA obA).manifest.layers.length
    ∧ (okConfig resA (imgDataOf wA origA).config).history
        = (imgDataOf wA nbA).config.history
          ++ (imgDataOf wA origA).config.history.drop (imgDataOf wA obA).config.history.length
    ∧ (okConfig resA (imgDataOf wA origA).config).rootFS.diffIDs
        = (imgDataOf wA nbA).config.rootFS.diffIDs
          ++ (imgDataOf wA origA).config.rootFS.diffIDs.drop
              (imgDataOf wA obA).config.rootFS.diffIDs.length := by
  have h := rebase_splice_correct wA origA obA nbA rbA
    (imgDataOf wA origA) (imgDataOf wA obA) (imgDataOf wA nbA)
    (digOf wA origA) (digOf wA obA) (digOf wA nbA)
    (getImageData wA origA).1 (getImageData wA obA).1 (getImageData wA nbA).1
    (okManifest resA mOA) (okConfig resA (imgDataOf wA origA).config) (okBytes resA)
    (by rfl) (by rfl) (by rfl) (by rfl) (by rfl) (by rfl)
  exact ⟨by rfl, by rfl, h.1, h.2.1, h.2.2.1⟩

/-! ## C4: the recomputed config digest -/

/-- C4: whenever a rebase call completes, the pushed manifest's config
descriptor digest is exactly `sha256:` followed by the lowercase-hex
SHA-256 of the re-serialized post-splice config bytes `b` (the manifest
carries `toJSON`'s exact output, which is also the byte sequence uploaded
as the config blob), and the descriptor's size is the byte length of that
serialization. -/
theorem config_digest_recomputed
    (w : World) (orig rebased : ImageName) (ob nb : Option ImageName)
    (m : Manifest) (c : Config) (b : String)
    (hok : (RebaseRun w orig ob nb rebased).outcome = .ok m c b) :
    c.toJSON = some b
    ∧ m.config.digest = sha256Hex b
    ∧ m.config.size = ((strBytes b).length : Int)
    ∧ NetEvent.blobPut rebased.reg rebased.repo (sha256Hex b) b
        ∈ (RebaseRun w orig ob nb rebased).events := by
  cases hdig : rebased.isDigest with
  | true =>
    rw [show RebaseRun w orig ob nb rebased = ⟨[], .err .rebasedIsDigest⟩ from by
      simp [RebaseRun, hdig]] at hok
    exact absurd hok (by simp)
  | false =>
    rcases hgO : getImageData w orig with ⟨evO, rO⟩
    cases rO with
    | error e =>
      rw [show RebaseRun w orig ob nb rebased = ⟨evO, .err (.getOriginal e)⟩ from by
        simp [RebaseRun, hdig, hgO]] at hok
      exact absurd hok (by simp)
    | ok pO =>
      rcases pO with ⟨origData, dO⟩
      cases ob with
      | none =>
        cases nb with
        | some nb' =>
          rw [show RebaseRun w orig none (some nb') rebased = ⟨evO, .err .basePairMismatch⟩
            from by simp [RebaseRun, hdig, hgO]] at hok
          exact absurd hok (by simp)
        | none =>
          cases hlb : getBasesFromLabel origData.config with
          | error e =>
            rw [show RebaseRun w orig none none rebased = ⟨evO, .err e⟩ from by
              simp [RebaseRun, hdig, hgO, hlb]] at hok
            exact absurd hok (by simp)
          | ok p =>
            rcases p with ⟨ob', nb'⟩
            rw [show RebaseRun w orig none none rebased
                = rebaseWithBases w orig origData ob' nb' rebased evO from by
              simp [RebaseRun, hdig, hgO, hlb]] at hok ⊢
            obtain ⟨_, _, _, _, _, _, _, _, _, _, _, _, _, _, _, hjson, hd, hsz, hmem⟩ :=
              rebaseWithBases_ok_inv rfl hok
            exact ⟨hjson, hd, hsz, hd ▸ hmem⟩
      | some ob' =>
        cases nb with
        | none =>
          rw [show RebaseRun w orig (some ob') none rebased = ⟨evO, .err .basePairMismatch⟩
            from by simp [RebaseRun, hdig, hgO]] at hok
          exact absurd hok (by simp)
        | some nb' =>
          rw [rebaseRun_to_withBases hdig hgO] at hok ⊢
          obtain ⟨_, _, _, _, _, _, _, _, _, _, _, _, _, _, _, hjson, hd, hsz, hmem⟩ :=
            rebaseWithBases_ok_inv rfl hok
          exact ⟨hjson, hd, hsz, hd ▸ hmem⟩

/-- C4 witness: on the `wA` fixture the run completes and the pushed
manifest's config digest, size, and uploaded blob all come from the same
serialized bytes. -/
theorem config_digest_recomputed_witness :
    resA.outcome
      = .ok (okManifest resA mOA) (okConfig resA (imgDataOf wA origA).config) (okBytes resA)
    ∧ (okManifest resA mOA).config.digest = sha256Hex (okBytes resA)
    ∧ (okManifest resA mOA).config.size = ((strBytes (okBytes resA)).length : Int)
    ∧ NetEvent.blobPut rbA.reg rbA.repo (sha256Hex (okBytes resA)) (okBytes resA)
        ∈ resA.events := by
  have h := config_digest_recomputed wA origA rbA (some obA) (some nbA)
    (okManifest resA mOA) (okConfig resA (imgDataOf wA origA).config) (okBytes resA)
    (by rfl)
  exact ⟨by rfl, h.2.1, h.2.2.1, h.2.2.2⟩

/-! ## C10: the `config` type assertion in `toJSON` -/

theorem toJSON_none_of_config_not_obj {c : Config}
    (h : ∀ fs : JsonObj, lookupKey "config" c.allData ≠ some (.obj fs)) :
    c.toJSON = none := by
  unfold Config.toJSON toJSONObj
  dsimp only
  rw [lookupKey_setKey, if_neg (by decide), lookupKey_setKey, if_neg (by decide)]
  cases hv : lookupKey "config" c.allData with
  | none => rfl
  | some v => cases v <;> first
    | rfl
    | exact absurd hv (h _)

/-- C10 counterexample: a config document whose top-level `config` member
is the string `"x"` — not a JSON object — does NOT make `Rebase` panic:
the typed decode inside `configFromJSON` already fails, so the fetch of
the original image returns a decode error and `toJSON` is never reached. -/
theorem nonobject_config_errors_not_panics :
    configFromJSON cfgBadStr = none
    ∧ RebaseRun wBad origA (some obA) (some nbA) rbA
        = ⟨[.manifestGet "r" "app" "latest", .blobGet "r" "app" "sha256:cfgO"],
           .err (.getOriginal .configDecode)⟩ := by
  exact ⟨rfl, rfl⟩

/-- C10 amended: (a) when the decoded config document has no top-level
`config` key, or that key's value is JSON `null`, `config.toJSON` panics
via the failed type assertion (it has no error return); (b) `Rebase`,
which calls it unconditionally after the splice, therefore panics on any
such run that reaches the serialization step; (c) for every other
non-object `config` value the typed decode in `configFromJSON` fails
first, so the fetch returns an error value instead and the panic is
unreachable. -/
theorem toJSON_panic_conditions :
    (∀ c : Config,
      (lookupKey "config" c.allData = none ∨ lookupKey "config" c.allData = some .null) →
      c.toJSON = none)
    ∧ (∀ (w : World) (orig ob nb rebased : ImageName)
        (origData oldData newData : ImageData) (dO dB dN : String)
        (evO evB evN ev₄ : List NetEvent) (m' : Manifest) (c₂ : Config),
      rebased.isDigest = false →
      getImageData w orig = (evO, .ok (origData, dO)) →
      getImageData w ob = (evB, .ok (oldData, dB)) →
      getImageData w nb = (evN, .ok (newData, dN)) →
      basisLoop origData.manifest.layers oldData.manifest.layers = some true →
      (if nb.reg ≠ rebased.reg then mirrorGo w rebased nb newData.manifest
        else mountGo w rebased nb newData.manifest) = (ev₄, none) →
      spliceData origData oldData newData nb dN = some (m', c₂) →
      (lookupKey "config" origData.config.allData = none
        ∨ lookupKey "config" origData.config.allData = some .null) →
      RebaseRun w orig (some ob) (some nb) rebased
        = ⟨evO ++ evB ++ evN ++ ev₄, .panicked⟩)
    ∧ (∀ (s : String) (fields : JsonObj) (v : Json),
      goUnmarshal s = some (.obj fields) →
      lookupKey "config" fields = some v →
      (∀ fs : JsonObj, v ≠ .obj fs) → v ≠ .null →
      configFromJSON s = none) := by
  have key : ∀ c : Config,
      (lookupKey "config" c.allData = none ∨ lookupKey "config" c.allData = some .null) →
      c.toJSON = none := by
    intro c h
    apply toJSON_none_of_config_not_obj
    intro fs hfs
    cases h with
    | inl h0 => rw [h0] at hfs; exact Option.noConfusion hfs
    | inr h0 => rw [h0] at hfs; exact Json.noConfusion (Option.some.inj hfs)
  refine ⟨key, ?_, ?_⟩
  · intro w orig ob nb rebased origData oldData newData dO dB dN evO evB evN ev₄ m' c₂
      hdig hO hB hN hbasis htr hsd hbad
    obtain ⟨_, _, _, _, _, _, hall, _⟩ := spliceData_some hsd
    have hjson : c₂.toJSON = none := key c₂ (by rw [hall]; exact hbad)
    rw [rebaseRun_to_withBases hdig hO]
    unfold rebaseWithBases
    rw [hB, hN]
    dsimp only
    rw [hbasis]
    dsimp only
    rw [htr]
    dsimp only
    rw [hsd]
    dsimp only
    unfold finishPush
    rw [hjson]
    simp
  · intro s fields v hun hv hobj hnull
    have hl : labelsField fields = none := by
      unfold labelsField
      rw [hv]
      cases v with
      | null => exact absurd rfl hnull
      | obj fs => exact absurd rfl (hobj fs)
      | bool b => rfl
      | num n => rfl
      | str st => rfl
      | arr es => rfl
    unfold configFromJSON
    rw [hun]
    cases hX : historyField fields with
    | none => simp [hX]
    | some h1 =>
      cases hY : rootfsField fields with
      | none => simp [hX, hY, hl]
      | some r1 => simp [hX, hY, hl]

/-- C10 witness: on the `wNoCfg` fixture — the original's config document
has no top-level `config` key and everything else succeeds — the run
panics right after the transfer step. -/
theorem toJSON_panic_conditions_witness :
    lookupKey "config" (imgDataOf wNoCfg origA).config.allData = none
    ∧ RebaseRun wNoCfg origA (some obA) (some nbA) rbA
        = ⟨(getImageData wNoCfg origA).1 ++ (getImageData wNoCfg obA).1
            ++ (getImageData wNoCfg nbA).1
            ++ (mountGo wNoCfg rbA nbA (imgDataOf wNoCfg nbA).manifest).1,
           .panicked⟩ := by
  refine ⟨rfl, ?_⟩
  exact toJSON_panic_conditions.2.1 wNoCfg origA obA nbA rbA
    (imgDataOf wNoCfg origA) (imgDataOf wNoCfg obA) (imgDataOf wNoCfg nbA)
    (digOf wNoCfg origA) (digOf wNoCfg obA) (digOf wNoCfg nbA)
    (getImageData wNoCfg origA).1 (getImageData wNoCfg obA).1 (getImageData wNoCfg nbA).1
    (mountGo wNoCfg rbA nbA (imgDataOf wNoCfg nbA).manifest).1
    spliceNoCfg.1 spliceNoCfg.2
    (by decide) (by rfl) (by rfl) (by rfl) (by rfl) (by rfl) (by rfl) (Or.inl rfl)

/-! ## C3 witness -/

/-- C3 witness: on the `wMount` fixture — layer `L1` mounts with 201,
layer `L2` answers 202 — the amended theorem's hypotheses hold and the
run ends as two mount POSTs followed by the full-manifest mirror. -/
theorem mount_fallback_behavior_witness :
    rbA.repo ≠ nbA.repo
    ∧ mMount.layers = [dsc "L1"] ++ dsc "L2" :: []
    ∧ wMount.mountStatus rbA.reg rbA.repo (dsc "L2").digest nbA.repo = 202
    ∧ mountGo wMount rbA nbA mMount
        = (([dsc "L1"] ++ [dsc "L2"]).map
            (fun p => NetEvent.mountPost rbA.reg rbA.repo p.digest nbA.repo)
            ++ (mirrorGo wMount rbA nbA mMount).1,
           (mirrorGo wMount rbA nbA mMount).2) := by
  refine ⟨by decide, rfl, rfl, ?_⟩
  exact mount_fallback_behavior.2.1 wMount rbA nbA mMount [dsc "L1"] [] (dsc "L2")
    (by decide) rfl (by decide) rfl

/-! ## C5: the config round trip -/

/-- C5 counterexample: the round trip `configFromJSON` then `toJSON` on a
compact, already-sorted document whose only unknown field is
`"foo": "<"` re-serializes the unknown field as `"foo": "<"` —
`encoding/json`'s default HTML escaping — so the unknown field does not
reappear byte-identical (the two documents differ exactly there). -/
theorem config_roundtrip_not_byte_identical :
    configRoundTrip rtIn = some rtOut ∧ rtOut ≠ rtIn := by
  exact ⟨rfl, by decide⟩

theorem configFromJSON_allData {s : String} {allFields : JsonObj} {c : Config}
    (hun : goUnmarshal s = some (.obj allFields))
    (hc : configFromJSON s = some c) :
    c.allData = allFields := by
  unfold configFromJSON at hc
  rw [hun] at hc
  dsimp only at hc
  cases hX : historyField allFields with
  | none => rw [hX] at hc; exact absurd hc (by simp)
  | some h1 =>
    cases hY : rootfsField allFields with
    | none => rw [hX, hY] at hc; exact absurd hc (by simp)
    | some r1 =>
      cases hZ : labelsField allFields with
      | none => rw [hX, hY, hZ] at hc; exact absurd hc (by simp)
      | some l1 =>
        rw [hX, hY, hZ] at hc
        have hc2 : (⟨allFields, h1, r1, l1⟩ : Config) = c := Option.some.inj hc
        rw [← hc2]

/-- C5 amended: the round trip preserves every unknown top-level field as
a JSON value — the re-serialized output is the marshaling of an object
that agrees with the decoded input document on every top-level key other
than `history`, `rootfs` and `config` — but not necessarily byte-for-byte
(the marshaller sorts keys and re-escapes strings, as the counterexample
shows). -/
theorem config_roundtrip_value_preserving
    (s : String) (allFields : JsonObj) (c : Config) (k : String)
    (h' : List HistoryEntry) (r' : RootFS) (l' : Option (List (String × String)))
    (fields' : JsonObj)
    (hun : goUnmarshal s = some (.obj allFields))
    (hc : configFromJSON s = some c)
    (hobj : toJSONObj { c with history := h', rootFS := r', labels := l' } = some fields')
    (hk1 : k ≠ "history") (hk2 : k ≠ "rootfs") (hk3 : k ≠ "config") :
    lookupKey k fields' = lookupKey k allFields
    ∧ Config.toJSON { c with history := h', rootFS := r', labels := l' }
        = some (jsonMarshal (.obj fields')) := by
  have hall : c.allData = allFields := configFromJSON_allData hun hc
  constructor
  · unfold toJSONObj at hobj
    dsimp only at hobj
    cases hv : lookupKey "config"
        (setKey "rootfs" (rootfsToJson r')
          (setKey "history" (historyToJson h') c.allData)) with
    | none => rw [hv] at hobj; exact absurd hobj (by simp)
    | some v =>
      cases v with
      | obj cfgFields =>
        rw [hv] at hobj
        dsimp only at hobj
        rw [← Option.some.inj hobj]
        rw [lookupKey_setKey, if_neg (fun hh => hk3 hh.symm),
          lookupKey_setKey, if_neg (fun hh => hk2 hh.symm),
          lookupKey_setKey, if_neg (fun hh => hk1 hh.symm), hall]
      | null => rw [hv] at hobj; exact absurd hobj (by simp)
      | bool b => rw [hv] at hobj; exact absurd hobj (by simp)
      | num n => rw [hv] at hobj; exact absurd hobj (by simp)
      | str st => rw [hv] at hobj; exact absurd hobj (by simp)
      | arr es => rw [hv] at hobj; exact absurd hobj (by simp)
  · unfold Config.toJSON
    rw [hobj]
    rfl

/-- C5 witness: on the round-trip input, the unknown field `foo` carries
the same JSON value (the string `"<"`) in the marshaled object as in the
decoded input. -/
theorem config_roundtrip_value_preserving_witness :
    goUnmarshal rtIn = some (.obj rtFields)
    ∧ configFromJSON rtIn = some rtConfig
    ∧ lookupKey "foo" rtFields = some (.str "<")
    ∧ lookupKey "foo" rtFields' = lookupKey "foo" rtFields := by
  have h := config_roundtrip_value_preserving rtIn rtFields rtConfig "foo"
    rtConfig.history rtConfig.rootFS rtConfig.labels rtFields'
    (by rfl) (by rfl) (by rfl) (by decide) (by decide) (by decide)
  exact ⟨by rfl, by rfl, by rfl, h.1⟩

/-! ## C8: the per-host Basic-credential cache -/

theorem lookupLabel_setLabel (host auth : String) :
    ∀ cache : List (String × String),
      lookupLabel host (setLabel host auth cache) = some auth
  | [] => by simp [setLabel, lookupLabel]
  | (k, v) :: rest => by
    by_cases h : k = host
    · simp [setLabel, lookupLabel, h]
    · simp [setLabel, lookupLabel, h, lookupLabel_setLabel host auth rest]

/-- C8: a first request that resolves a Basic credential — through a
credential helper (first conjunct) or a static `auths` entry (second) —
caches it under the request host; any request to a host with a cache
entry attaches the cached credential and issues exactly one inner call:
no config read and no helper invocation (third); and the cache write is
visible to the next lookup for that host (fourth). -/
theorem basic_cred_cached_once :
    (∀ (w : TWorld) (cache : List (String × String)) (r : Request)
       (cfg : DockerConfig) (hostKey helper auth : String),
      r.authHeader = none →
      lookupLabel r.host cache = none →
      w.dockerConfig = some cfg →
      findCredEntry r.host cfg.credHelpers = some (hostKey, helper) →
      w.helperOut helper = some auth →
      roundTrip w cache r
        = ⟨[.configRead, .helperInvoked helper,
            .innerCall (.main { r with authHeader := some ("Basic " ++ auth) })],
           .resp (w.inner (.main { r with authHeader := some ("Basic " ++ auth) })),
           setLabel r.host auth cache⟩)
    ∧ (∀ (w : TWorld) (cache : List (String × String)) (r : Request)
       (cfg : DockerConfig) (hostKey auth : String),
      r.authHeader = none →
      lookupLabel r.host cache = none →
      w.dockerConfig = some cfg →
      findCredEntry r.host cfg.credHelpers = none →
      findCredEntry r.host cfg.auths = some (hostKey, auth) →
      roundTrip w cache r
        = ⟨[.configRead,
            .innerCall (.main { r with authHeader := some ("Basic " ++ auth) })],
           .resp (w.inner (.main { r with authHeader := some ("Basic " ++ auth) })),
           setLabel r.host auth cache⟩)
    ∧ (∀ (w : TWorld) (cache : List (String × String)) (r : Request) (auth : String),
      r.authHeader = none →
      lookupLabel r.host cache = some auth →
      roundTrip w cache r
        = ⟨[.innerCall (.main { r with authHeader := some ("Basic " ++ auth) })],
           .resp (w.inner (.main { r with authHeader := some ("Basic " ++ auth) })),
           cache⟩)
    ∧ (∀ (cache : List (String × String)) (host auth : String),
      lookupLabel host (setLabel host auth cache) = some auth) := by
  refine ⟨?_, ?_, ?_, fun cache host auth => lookupLabel_setLabel host auth cache⟩
  · intro w cache r cfg hostKey helper auth hh hc hcfg hfind hout
    simp [roundTrip, hh, hc, hcfg, hfind, hout]
  · intro w cache r cfg hostKey auth hh hc hcfg hfind hfind2
    simp [roundTrip, hh, hc, hcfg, hfind, hfind2]
  · intro w cache r auth hh hc
    simp [roundTrip, hh, hc]

/-- C8 witness: on the `wHelper` fixture the first request invokes the
`gcloud` helper and caches the credential for the host; the second
request hits the cache and issues exactly one inner call, reading no
config and invoking no helper. -/
theorem basic_cred_cached_once_witness :
    roundTrip wHelper [] reqT
      = ⟨[.configRead, .helperInvoked "gcloud",
          .innerCall (.main { reqT with authHeader := some ("Basic " ++ "dXNlcjpwdw==") })],
         .resp (wHelper.inner (.main { reqT with authHeader := some ("Basic " ++ "dXNlcjpwdw==") })),
         setLabel reqT.host "dXNlcjpwdw==" []⟩
    ∧ roundTrip wHelper (setLabel reqT.host "dXNlcjpwdw==" []) reqT
      = ⟨[.innerCall (.main { reqT with authHeader := some ("Basic " ++ "dXNlcjpwdw==") })],
         .resp (wHelper.inner (.main { reqT with authHeader := some ("Basic " ++ "dXNlcjpwdw==") })),
         setLabel reqT.host "dXNlcjpwdw==" []⟩ := by
  constructor
  · exact basic_cred_cached_once.1 wHelper [] reqT cfgHelper
      "https://h.example" "gcloud" "dXNlcjpwdw=="
      (by rfl) (by rfl) (by rfl) (by rfl) (by rfl)
  · exact basic_cred_cached_once.2.2.1 wHelper (setLabel reqT.host "dXNlcjpwdw==" []) reqT
      "dXNlcjpwdw==" (by rfl) (by rfl)

/-! ## C9: bearer tokens are never cached -/

/-- C9: when no Basic credential is available for the host — nothing
cached, no helper and no `auths` entry — a `RoundTrip` call leaves the
cache exactly as it was, whatever the response (in particular a bearer
token obtained through the 401 challenge exchange is never stored); a
subsequent identical request therefore produces the identical call
sequence, re-running the full challenge/token exchange instead of reusing
a token. -/
theorem bearer_not_cached
    (w : TWorld) (cache : List (String × String)) (r : Request) (cfg : DockerConfig)
    (hh : r.authHeader = none)
    (hc : lookupLabel r.host cache = none)
    (hcfg : w.dockerConfig = some cfg)
    (hfind : findCredEntry r.host cfg.credHelpers = none)
    (hfind2 : findCredEntry r.host cfg.auths = none) :
    (roundTrip w cache r).cache = cache
    ∧ roundTrip w ((roundTrip w cache r).cache) r = roundTrip w cache r
    ∧ (∀ u : String,
        TEvent.innerCall (.tokenGet u) ∈ (roundTrip w cache r).events →
        TEvent.innerCall (.tokenGet u) ∈ (roundTrip w ((roundTrip w cache r).cache) r).events) := by
  have h1 : (roundTrip w cache r).cache = cache := by
    unfold roundTrip
    simp only [hh, hc, hcfg, hfind, hfind2]
    repeat' split
    all_goals rfl
  refine ⟨h1, by rw [h1], ?_⟩
  intro u hu
  rw [h1]
  exact hu

/-- C9 witness: on the `wBearer` fixture (no credentials, bearer
challenge) the call leaves the cache empty, the repeat call is identical,
and the trace contains the token-exchange GET. -/
theorem bearer_not_cached_witness :
    (roundTrip wBearer [] reqT).cache = []
    ∧ roundTrip wBearer ((roundTrip wBearer [] reqT).cache) reqT = roundTrip wBearer [] reqT
    ∧ TEvent.innerCall
        (.tokenGet "https://auth.example/token?service=registry.example&scope=repository:foo:pull")
        ∈ (roundTrip wBearer [] reqT).events := by
  have h := bearer_not_cached wBearer [] reqT ⟨[], []⟩
    (by rfl) (by rfl) (by rfl) (by rfl) (by rfl)
  exact ⟨h.1, h.2.1, by decide⟩

end ImageRebase
